import Mathlib

/-!
Verification development for the election backend (src/app.py).

The Python source is shallowly embedded: Python dicts become insertion-ordered
association lists (`List (String × α)`), Python's stable `list.sort(key=...,
reverse=True)` becomes the stable insertion sort `sortDescBy`, Python ints and
floats become `ℚ` (exact arithmetic; the float rounding helper `round(x, n)` is
modelled by `roundDec`), and functions that can return `None` return `Option`.
Network fetches and config loading are out of scope (external collaborators):
their already-parsed snapshots are passed to the embedded functions as
arguments.
-/

namespace Elecciones

/-- Lookup in an insertion-ordered association list, as Python `d.get(k)`:
the first binding for the key wins. -/
def dget {α : Type} : List (String × α) → String → Option α
  | [], _ => none
  | (ka, v) :: r, k => if ka = k then some v else dget r k

/-- Lookup with default, as Python `d.get(k, dflt)`. -/
def dgetD {α : Type} (l : List (String × α)) (k : String) (dflt : α) : α :=
  (dget l k).getD dflt

/-- The Python accumulation pattern `if k not in d: d[k] = ini` followed by a
mutation of `d[k]`: update the binding in place if the key is present,
otherwise append a new binding `f ini` at the end (Python dicts keep
insertion order). -/
def dUpdate {α : Type} : List (String × α) → String → α → (α → α) → List (String × α)
  | [], k, ini, f => [(k, f ini)]
  | (ka, v) :: r, k, ini, f =>
      if ka = k then (ka, f v) :: r else (ka, v) :: dUpdate r k ini f

/-- Python `d[k] = d.get(k, 0) + 1`. -/
def bump (l : List (String × ℕ)) (k : String) : List (String × ℕ) :=
  dUpdate l k 0 (fun v => v + 1)

/-- Python `d[k] = v` (overwrite or append). -/
def dSet {α : Type} (l : List (String × α)) (k : String) (v : α) : List (String × α) :=
  dUpdate l k v (fun _ => v)

/-- Python `del d[k]` (tolerating an absent key, as the source guards with
`if k in d`). -/
def dRemove {α : Type} (l : List (String × α)) (k : String) : List (String × α) :=
  l.filter (fun e => !(e.1 == k))

theorem dget_dUpdate_self {α : Type} (l : List (String × α)) (k : String) (ini : α) (f : α → α) :
    dget (dUpdate l k ini f) k = some (f (dgetD l k ini)) := by
  induction l with
  | nil => simp [dUpdate, dget, dgetD]
  | cons hd tl ih =>
    obtain ⟨ka, v⟩ := hd
    by_cases hk : ka = k
    · subst hk
      simp [dUpdate, dget, dgetD]
    · simp [dUpdate, dget, dgetD, hk] at ih ⊢
      exact ih

theorem dget_dUpdate_other {α : Type} (l : List (String × α)) (k ka : String) (ini : α)
    (f : α → α) (hk : ka ≠ k) :
    dget (dUpdate l k ini f) ka = dget l ka := by
  induction l with
  | nil => simp [dUpdate, dget, Ne.symm hk]
  | cons hd tl ih =>
    obtain ⟨kb, v⟩ := hd
    by_cases hb : kb = k
    · subst hb
      simp [dUpdate, dget, Ne.symm hk]
    · simp [dUpdate, dget, hb]
      by_cases hba : kb = ka
      · simp [hba, dget]
      · simp [dget, hba, ih]

theorem dUpdate_ne_nil {α : Type} (l : List (String × α)) (k : String) (ini : α) (f : α → α) :
    dUpdate l k ini f ≠ [] := by
  cases l with
  | nil => simp [dUpdate]
  | cons hd tl =>
    obtain ⟨ka, v⟩ := hd
    by_cases hk : ka = k <;> simp [dUpdate, hk]

theorem keys_dUpdate {α : Type} (l : List (String × α)) (k : String) (ini : α) (f : α → α) :
    (dUpdate l k ini f).map Prod.fst =
      if k ∈ l.map Prod.fst then l.map Prod.fst else l.map Prod.fst ++ [k] := by
  induction l with
  | nil => simp [dUpdate]
  | cons hd tl ih =>
    obtain ⟨ka, v⟩ := hd
    by_cases hk : ka = k
    · subst hk
      simp [dUpdate]
    · simp only [dUpdate, if_neg hk, List.map_cons, ih]
      by_cases hmem : k ∈ tl.map Prod.fst
      · simp [hmem, Ne.symm hk]
      · simp [hmem, Ne.symm hk]

theorem nodup_keys_dUpdate {α : Type} (l : List (String × α)) (k : String) (ini : α)
    (f : α → α) (hl : (l.map Prod.fst).Nodup) :
    ((dUpdate l k ini f).map Prod.fst).Nodup := by
  rw [keys_dUpdate]
  by_cases hmem : k ∈ l.map Prod.fst
  · simpa [hmem] using hl
  · simp only [if_neg hmem]
    simpa [List.nodup_append, hmem] using hl

theorem dget_eq_some_of_mem {α : Type} (l : List (String × α)) (k : String) (v : α)
    (hnd : (l.map Prod.fst).Nodup) (hmem : (k, v) ∈ l) : dget l k = some v := by
  induction l with
  | nil => simp at hmem
  | cons hd tl ih =>
    obtain ⟨ka, va⟩ := hd
    simp only [List.map_cons, List.nodup_cons] at hnd
    rcases List.mem_cons.mp hmem with h | h
    · obtain ⟨h1, h2⟩ := Prod.mk.injEq .. ▸ h
      simp [dget, h1.symm, h2]
    · have hk : ka ≠ k := by
        intro he
        exact hnd.1 (he ▸ (List.mem_map.mpr ⟨(k, v), h, rfl⟩))
      simp [dget, hk, ih hnd.2 h]

theorem mem_of_dget_eq_some {α : Type} (l : List (String × α)) (k : String) (v : α)
    (hg : dget l k = some v) : (k, v) ∈ l := by
  induction l with
  | nil => simp [dget] at hg
  | cons hd tl ih =>
    obtain ⟨ka, va⟩ := hd
    by_cases hk : ka = k
    · subst hk
      simp [dget] at hg
      simp [hg]
    · simp [dget, hk] at hg
      exact List.mem_cons_of_mem _ (ih hg)

theorem sum_values_bump (l : List (String × ℕ)) (k : String) :
    ((bump l k).map Prod.snd).sum = (l.map Prod.snd).sum + 1 := by
  induction l with
  | nil => simp [bump, dUpdate]
  | cons hd tl ih =>
    obtain ⟨ka, v⟩ := hd
    by_cases hk : ka = k
    · subst hk
      simp [bump, dUpdate]
      ring
    · simp only [bump, dUpdate, if_neg hk, List.map_cons, List.sum_cons] at ih ⊢
      rw [ih]
      ring

theorem dgetD_bump_self (l : List (String × ℕ)) (k : String) :
    dgetD (bump l k) k 0 = dgetD l k 0 + 1 := by
  simp [bump, dgetD, dget_dUpdate_self]

theorem dgetD_bump_other (l : List (String × ℕ)) (k ka : String) (hk : ka ≠ k) :
    dgetD (bump l k) ka 0 = dgetD l ka 0 := by
  simp [bump, dgetD, dget_dUpdate_other _ _ _ _ _ hk]

/-- Stable insertion of `x` into a descending-sorted list: `x` goes after every
earlier element that is not strictly below it, matching the stability of
Python's `list.sort(..., reverse=True)` (`gt x y` means `x` strictly
precedes `y`). -/
def insDesc {α : Type} (gt : α → α → Bool) (x : α) : List α → List α
  | [] => [x]
  | y :: ys => if gt x y then x :: y :: ys else y :: insDesc gt x ys

/-- Stable descending sort, modelling Python `list.sort(key=..., reverse=True)`. -/
def sortDescBy {α : Type} (gt : α → α → Bool) (l : List α) : List α :=
  l.foldl (fun acc x => insDesc gt x acc) []

theorem length_insDesc {α : Type} (gt : α → α → Bool) (x : α) (l : List α) :
    (insDesc gt x l).length = l.length + 1 := by
  induction l with
  | nil => simp [insDesc]
  | cons y ys ih =>
    by_cases h : gt x y <;> simp [insDesc, h, ih]

theorem mem_insDesc {α : Type} (gt : α → α → Bool) (x y : α) (l : List α) :
    y ∈ insDesc gt x l ↔ y = x ∨ y ∈ l := by
  induction l with
  | nil => simp [insDesc]
  | cons z zs ih =>
    by_cases h : gt x z
    · simp [insDesc, h]
    · simp only [insDesc, if_neg h, List.mem_cons, ih]
      tauto

theorem sum_map_insDesc {α M : Type} [AddCommMonoid M] (gt : α → α → Bool) (x : α)
    (l : List α) (f : α → M) :
    ((insDesc gt x l).map f).sum = f x + (l.map f).sum := by
  induction l with
  | nil => simp [insDesc]
  | cons y ys ih =>
    by_cases h : gt x y
    · simp [insDesc, h]
    · simp only [insDesc, if_neg h, List.map_cons, List.sum_cons, ih]
      rw [← add_assoc, add_comm (f y) (f x), add_assoc]

theorem countP_insDesc {α : Type} (gt : α → α → Bool) (x : α) (l : List α) (p : α → Bool) :
    (insDesc gt x l).countP p = l.countP p + (if p x then 1 else 0) := by
  induction l with
  | nil => by_cases h : p x <;> simp [insDesc, List.countP_cons, h]
  | cons y ys ih =>
    by_cases h : gt x y
    · by_cases hp : p x
      · simp [insDesc, h, List.countP_cons, hp]
      · simp [insDesc, h, List.countP_cons, hp]
    · simp only [insDesc, if_neg h, List.countP_cons, ih]
      ring

theorem length_sortDescBy {α : Type} (gt : α → α → Bool) (l : List α) :
    (sortDescBy gt l).length = l.length := by
  suffices h : ∀ acc : List α, (l.foldl (fun acc x => insDesc gt x acc) acc).length
      = acc.length + l.length by
    simpa using h []
  induction l with
  | nil => intro acc; simp
  | cons x xs ih =>
    intro acc
    simp only [List.foldl_cons, ih, length_insDesc, List.length_cons]
    omega

theorem mem_sortDescBy {α : Type} (gt : α → α → Bool) (l : List α) (y : α) :
    y ∈ sortDescBy gt l ↔ y ∈ l := by
  suffices h : ∀ acc : List α, y ∈ l.foldl (fun acc x => insDesc gt x acc) acc
      ↔ y ∈ acc ∨ y ∈ l by
    simpa using h []
  induction l with
  | nil => intro acc; simp
  | cons x xs ih =>
    intro acc
    simp only [List.foldl_cons, ih, mem_insDesc, List.mem_cons]
    tauto

theorem sum_map_sortDescBy {α M : Type} [AddCommMonoid M] (gt : α → α → Bool)
    (l : List α) (f : α → M) :
    ((sortDescBy gt l).map f).sum = (l.map f).sum := by
  suffices h : ∀ acc : List α, ((l.foldl (fun acc x => insDesc gt x acc) acc).map f).sum
      = (acc.map f).sum + (l.map f).sum by
    simpa using h []
  induction l with
  | nil => intro acc; simp
  | cons x xs ih =>
    intro acc
    simp only [List.foldl_cons, ih, sum_map_insDesc, List.map_cons, List.sum_cons]
    rw [add_comm (f x) ((acc.map f).sum), add_assoc]

theorem countP_sortDescBy {α : Type} (gt : α → α → Bool) (l : List α) (p : α → Bool) :
    (sortDescBy gt l).countP p = l.countP p := by
  suffices h : ∀ acc : List α, (l.foldl (fun acc x => insDesc gt x acc) acc).countP p
      = acc.countP p + l.countP p by
    simpa using h []
  induction l with
  | nil => intro acc; simp
  | cons x xs ih =>
    intro acc
    simp only [List.foldl_cons, ih, countP_insDesc, List.countP_cons]
    ring

/-- Generic shape of the Python dict-accumulation loops in the source
(`integrar`/`calcular` group candidates into dicts keyed by a string):
walk the list, creating the key with `ini` on first sight and folding each
element in with `paso`. -/
def agrupar_con {β α : Type} (key : β → String) (ini : β → α) (paso : α → β → α)
    (l : List β) : List (String × α) :=
  l.foldl (fun acc c => dUpdate acc (key c) (ini c) (fun d => paso d c)) []

theorem comp_dget_foldl_dUpdate {β α γ : Type} (key : β → String) (ini : β → α)
    (paso : α → β → α) (comp : α → List γ) (pr : β → γ)
    (hini : ∀ c, comp (ini c) = []) (hpaso : ∀ d c, comp (paso d c) = comp d ++ [pr c])
    (l : List β) (k : String) :
    ∀ acc : List (String × α),
      ((dget (l.foldl (fun acc c => dUpdate acc (key c) (ini c) (fun d => paso d c)) acc) k).map
          comp).getD []
        = ((dget acc k).map comp).getD [] ++ (l.filter (fun c => key c == k)).map pr := by
  induction l with
  | nil => intro acc; simp
  | cons c cs ih =>
    intro acc
    by_cases hk : key c = k
    · subst hk
      have hstep : dget (dUpdate acc (key c) (ini c) (fun d => paso d c)) (key c)
          = some (paso (dgetD acc (key c) (ini c)) c) :=
        dget_dUpdate_self acc (key c) (ini c) (fun d => paso d c)
      have hcomp : comp (paso (dgetD acc (key c) (ini c)) c)
          = ((dget acc (key c)).map comp).getD [] ++ [pr c] := by
        rw [hpaso]
        cases hc : dget acc (key c) with
        | none => simp [dgetD, hc, hini]
        | some d => simp [dgetD, hc]
      rw [List.foldl_cons, ih _, hstep]
      simp [hcomp, List.filter_cons, List.append_assoc]
    · have hstep : dget (dUpdate acc (key c) (ini c) (fun d => paso d c)) k = dget acc k :=
        dget_dUpdate_other acc (key c) k (ini c) (fun d => paso d c) (Ne.symm hk)
      have hfilter : (c :: cs).filter (fun x => key x == k) = cs.filter (fun x => key x == k) := by
        simp [List.filter_cons, hk]
      simp only [List.foldl_cons, ih, hstep, hfilter]

theorem comp_dget_agrupar_con {β α γ : Type} (key : β → String) (ini : β → α)
    (paso : α → β → α) (comp : α → List γ) (pr : β → γ)
    (hini : ∀ c, comp (ini c) = []) (hpaso : ∀ d c, comp (paso d c) = comp d ++ [pr c])
    (l : List β) (k : String) :
    ((dget (agrupar_con key ini paso l) k).map comp).getD []
      = (l.filter (fun c => key c == k)).map pr := by
  simpa [dget] using
    comp_dget_foldl_dUpdate key ini paso comp pr hini hpaso l k []

theorem nodup_keys_foldl_dUpdate {β α : Type} (key : β → String) (ini : β → α)
    (paso : α → β → α) (l : List β) :
    ∀ acc : List (String × α), (acc.map Prod.fst).Nodup →
      ((l.foldl (fun acc c => dUpdate acc (key c) (ini c) (fun d => paso d c)) acc).map
        Prod.fst).Nodup := by
  induction l with
  | nil => intro acc h; simpa using h
  | cons c cs ih =>
    intro acc h
    exact ih _ (nodup_keys_dUpdate acc (key c) (ini c) (fun d => paso d c) h)

theorem nodup_keys_agrupar_con {β α : Type} (key : β → String) (ini : β → α)
    (paso : α → β → α) (l : List β) :
    ((agrupar_con key ini paso l).map Prod.fst).Nodup :=
  nodup_keys_foldl_dUpdate key ini paso l [] (by simp)

theorem foldl_dUpdate_ne_nil {β α : Type} (key : β → String) (ini : β → α)
    (paso : α → β → α) (l : List β) :
    ∀ acc : List (String × α), acc ≠ [] →
      (l.foldl (fun acc c => dUpdate acc (key c) (ini c) (fun d => paso d c)) acc) ≠ [] := by
  induction l with
  | nil => intro acc h; simpa using h
  | cons c cs ih =>
    intro acc _
    exact ih _ (dUpdate_ne_nil acc (key c) (ini c) (fun d => paso d c))

theorem agrupar_con_ne_nil {β α : Type} (key : β → String) (ini : β → α)
    (paso : α → β → α) (l : List β) (hl : l ≠ []) :
    agrupar_con key ini paso l ≠ [] := by
  cases l with
  | nil => exact absurd rfl hl
  | cons c cs =>
    exact foldl_dUpdate_ne_nil key ini paso cs _
      (dUpdate_ne_nil [] (key c) (ini c) (fun d => paso d c))

theorem dgetD_foldl_bump {α : Type} (key : α → String) (l : List α) (k : String) :
    ∀ a0 : List (String × ℕ),
      dgetD (l.foldl (fun a c => bump a (key c)) a0) k 0
        = dgetD a0 k 0 + l.countP (fun c => key c == k) := by
  induction l with
  | nil => intro a0; simp
  | cons x xs ih =>
    intro a0
    by_cases hk : key x = k
    · subst hk
      simp only [List.foldl_cons, ih, dgetD_bump_self, List.countP_cons, beq_self_eq_true,
        if_pos]
      omega
    · have hb : dgetD (bump a0 (key x)) k 0 = dgetD a0 k 0 :=
        dgetD_bump_other a0 (key x) k (Ne.symm hk)
      simp only [List.foldl_cons, ih, hb, List.countP_cons]
      simp [hk]

theorem sum_map_ite_one (K : List String) (a : String) (hnd : K.Nodup) (ha : a ∈ K) :
    (K.map (fun k => if a == k then (1 : ℕ) else 0)).sum = 1 := by
  induction K with
  | nil => simp at ha
  | cons k ks ih =>
    simp only [List.nodup_cons] at hnd
    rw [List.map_cons, List.sum_cons]
    by_cases hk : a = k
    · subst hk
      have hz : (ks.map (fun k => if a == k then (1 : ℕ) else 0)).sum = 0 := by
        apply List.sum_eq_zero
        intro x hx
        obtain ⟨kb, hkb, hkx⟩ := List.mem_map.mp hx
        have hne : ¬((a == kb) = true) := by
          simp only [beq_iff_eq]
          exact fun he => hnd.1 (he ▸ hkb)
        rw [if_neg hne] at hkx
        exact hkx.symm
      rw [hz, if_pos (by simp)]
    · have ha2 : a ∈ ks := by
        rcases List.mem_cons.mp ha with h | h
        · exact absurd h hk
        · exact h
      rw [if_neg (by simpa using hk), ih hnd.2 ha2]

theorem sum_countP_eq_length {α : Type} (key : α → String) (K : List String) (l : List α)
    (hnd : K.Nodup) (hmem : ∀ x ∈ l, key x ∈ K) :
    (K.map (fun k => l.countP (fun x => key x == k))).sum = l.length := by
  induction l with
  | nil => simp
  | cons x xs ih =>
    have hx : key x ∈ K := hmem x (List.mem_cons_self x xs)
    have hxs : ∀ y ∈ xs, key y ∈ K := fun y hy => hmem y (List.mem_cons_of_mem x hy)
    simp only [List.countP_cons, List.sum_map_add, ih hxs, sum_map_ite_one K (key x) hnd hx,
      List.length_cons]

/-- One row of `get_candidatos_por_distrito` (src/app.py lines 199-214): the
roster (CSV) record of a candidate. -/
structure CandCSV where
  id : String
  name : String
  party : String
  cupo : String
  pacto_letra : String
  sexo : String
  zona : String
  id_foto : String
deriving DecidableEq

/-- One entry of `integrar_tres_fuentes_limpio`'s output (src/app.py lines
308-321): the canonical merged candidate record.  Python ints/floats are
modelled in ℚ. -/
structure Candidato where
  id_api : String
  votos : ℚ
  nombre : String
  partido : String
  pacto_letra : String
  pacto_nombre : String
  sexo : String
  cupo : String
  foto : Option String
  zona : String
  match_quality : ℚ
  match_exitoso : Bool
deriving DecidableEq

/-- Lower-casing of one character as Python `str.lower` acts on the alphabet
relevant to `preprocesar_nombre`: ASCII plus the accented letters that the
replacement table below knows about. -/
def minuscula (c : Char) : Char :=
  if c = 'Á' then 'á' else if c = 'É' then 'é' else if c = 'Í' then 'í'
  else if c = 'Ó' then 'ó' else if c = 'Ú' then 'ú' else if c = 'Ü' then 'ü'
  else if c = 'Ñ' then 'ñ' else c.toLower

/-- The `reemplazos` table of `preprocesar_nombre` (src/app.py line 221). -/
def reemplazar_tilde (c : Char) : Char :=
  if c = 'á' then 'a' else if c = 'é' then 'e' else if c = 'í' then 'i'
  else if c = 'ó' then 'o' else if c = 'ú' then 'u' else if c = 'ü' then 'u'
  else if c = 'ñ' then 'n' else c

/-- Python `str.strip()` restricted to spaces. -/
def recortar (l : List Char) : List Char :=
  ((l.dropWhile (fun c => c = ' ')).reverse.dropWhile (fun c => c = ' ')).reverse

/-- Python `str.split()` on spaces: empty tokens are dropped. -/
def partir_espacios : List Char → List Char → List (List Char)
  | [], acc => if acc = [] then [] else [acc.reverse]
  | c :: rest, acc =>
    if c = ' ' then
      if acc = [] then partir_espacios rest []
      else acc.reverse :: partir_espacios rest []
    else partir_espacios rest (c :: acc)

/-- The `palabras_remover` set of `preprocesar_nombre` (src/app.py line 225).
Note the source removes honorifics after folding ñ→n, so the entry "doña"
(kept verbatim here) can never match a folded token. -/
def palabras_remover : List String := ["sr", "sra", "dr", "dra", "don", "doña"]

/-- Python `' '.join(palabras)`. -/
def unir_espacios : List (List Char) → List Char
  | [] => []
  | [w] => w
  | w :: x :: ws => w ++ ' ' :: unir_espacios (x :: ws)

/-- Embedding of `preprocesar_nombre` (src/app.py lines 216-227): lower-case,
strip, fold diacritics, drop honorific tokens, re-join with single spaces.
The non-string input guard of the source is outside the model (inputs here
are always strings). -/
def preprocesar_nombre (nombre : String) : String :=
  let bajas := recortar (nombre.data.map minuscula)
  let sin_tildes := bajas.map reemplazar_tilde
  let palabras := (partir_espacios sin_tildes []).filter
    (fun w => !(palabras_remover.contains (String.mk w)))
  String.mk (unir_espacios palabras)

/-- The `process.extract(..., scorer=fuzz.WRatio, score_cutoff=50, limit=1)`
call of `hacer_match_por_nombre` (src/app.py lines 237-243): the best-scoring
candidate (first index wins ties), kept only when its score reaches the
cutoff 50.  The similarity scorer itself (rapidfuzz `fuzz.WRatio`, an external
library) is a parameter; it receives the two preprocessed names. -/
def paso_mejor (scorer : String → String → ℚ) (consulta : String)
    (mejor : Option (CandCSV × ℚ)) (c : CandCSV) : Option (CandCSV × ℚ) :=
  let s := scorer consulta (preprocesar_nombre c.name)
  match mejor with
  | none => some (c, s)
  | some (c0, s0) => if s0 < s then some (c, s) else some (c0, s0)

def mejor_candidato (scorer : String → String → ℚ) (consulta : String)
    (candidatos : List CandCSV) : Option (CandCSV × ℚ) :=
  candidatos.foldl (paso_mejor scorer consulta) none

/-- Embedding of `hacer_match_por_nombre` (src/app.py lines 229-249). -/
def hacer_match_por_nombre (scorer : String → String → ℚ) (nombre_api : String)
    (candidatos_csv : List CandCSV) : Option CandCSV × ℚ :=
  if nombre_api = "" ∨ candidatos_csv = [] then (none, 0)
  else
    match mejor_candidato scorer (preprocesar_nombre nombre_api) candidatos_csv with
    | none => (none, 0)
    | some (c, s) =>
      if s < 50 then (none, 0)
      else if 80 ≤ s then (some c, s) else (none, s)

/-- The maximum similarity score over a candidate list (0 for an empty list;
scores are non-negative for the real scorer, so the 0 seed is neutral). -/
def puntaje_maximo (scorer : String → String → ℚ) (nombre_api : String)
    (candidatos : List CandCSV) : ℚ :=
  (candidatos.map (fun c =>
    scorer (preprocesar_nombre nombre_api) (preprocesar_nombre c.name))).foldl max 0

/-- Entry of the `pactos` dict built by `calcular_dhondt_distrito` (src/app.py
lines 423-432). -/
structure PactoInfo where
  nombre : String
  letra : String
  total_votos : ℚ
  candidatos_completos : List Candidato
deriving DecidableEq

/-- Entry of the `coeficientes` list of `aplicar_dhondt_entre_pactos`
(src/app.py lines 331-338). -/
structure Coef where
  pacto_letra : String
  pacto_nombre : String
  divisor : ℕ
  coeficiente : ℚ
  votos_originales : ℚ
deriving DecidableEq

/-- Quotient generation of `aplicar_dhondt_entre_pactos` (src/app.py lines
326-338): for every coalition, one quotient `total_votos / d` per divisor
d = 1..escanos. -/
def coeficientes_pactos (pactos : List (String × PactoInfo)) (escanos : ℕ) : List Coef :=
  pactos.flatMap (fun e =>
    (List.range' 1 escanos).map (fun d =>
      Coef.mk e.1 e.2.nombre d (e.2.total_votos / (d : ℚ)) e.2.total_votos))

/-- Embedding of `aplicar_dhondt_entre_pactos` (src/app.py lines 325-348):
sort all quotients descending (Python's stable sort), take the top `escanos`,
and count one seat per taken quotient for its coalition. -/
def aplicar_dhondt_entre_pactos (pactos : List (String × PactoInfo)) (escanos : ℕ) :
    List (String × ℕ) × List Coef :=
  let orden := sortDescBy (fun a b => decide (b.coeficiente < a.coeficiente))
    (coeficientes_pactos pactos escanos)
  let mejores := orden.take escanos
  let asignacion := mejores.foldl (fun a c => bump a c.pacto_letra) []
  (asignacion, mejores)

/-- Entry of `pacto_info["candidatos"]` consumed by
`calcular_dhondt_interno_pacto` (src/app.py lines 464-474). -/
structure CandInterno where
  nombre : String
  votos : ℚ
  cupo : String
  partido : String
  sexo : String
deriving DecidableEq

/-- The grouping key of `calcular_dhondt_interno_pacto` (src/app.py line 354):
`cand.get("cupo", "") or "SIN_CUPO"` — an empty cupo falls into the synthetic
SIN_CUPO bucket. -/
def cupoEfectivo (c : CandInterno) : String :=
  if c.cupo = "" then "SIN_CUPO" else c.cupo

/-- Value of the `partidos` dict in `calcular_dhondt_interno_pacto`
(src/app.py lines 353-359). -/
structure GrupoInterno where
  total_votos : ℚ
  candidatos : List CandInterno
deriving DecidableEq

/-- Entry of `partidos_list` (src/app.py lines 364-372). -/
structure PartidoList where
  partido : String
  total_votos : ℚ
  candidatos : List CandInterno
  candidatos_disponibles : ℕ
deriving DecidableEq

/-- Entry of the `coeficientes` list of `calcular_dhondt_interno_pacto`
(src/app.py lines 375-383). -/
structure CoefInterno where
  partido : String
  division : ℕ
  valor : ℚ
  candidatos_disponibles : ℕ
deriving DecidableEq

/-- The `partidos` grouping loop of `calcular_dhondt_interno_pacto`
(src/app.py lines 351-359). -/
def agrupar_partidos_interno (candidatos : List CandInterno) : List (String × GrupoInterno) :=
  agrupar_con cupoEfectivo (fun _ => GrupoInterno.mk 0 [])
    (fun d c => GrupoInterno.mk (d.total_votos + c.votos) (d.candidatos ++ [c])) candidatos

/-- One step of the quotient walk of `calcular_dhondt_interno_pacto`
(src/app.py lines 390-397): assign one seat to the quotient's party unless the
party already holds as many seats as it has candidates available; once the
coalition's seat count is exhausted nothing changes (the source's `break` is
modelled by this no-op branch). -/
def paso_caminar (escanos_pacto : ℕ) (st : List (String × ℕ) × ℕ) (coef : CoefInterno) :
    List (String × ℕ) × ℕ :=
  if escanos_pacto ≤ st.2 then st
  else if dgetD st.1 coef.partido 0 < coef.candidatos_disponibles then
    (bump st.1 coef.partido, st.2 + 1)
  else st

/-- The quotient walk of `calcular_dhondt_interno_pacto` (src/app.py lines
387-398), returning `asignacion_final` together with `escanos_asignados`. -/
def caminar_coeficientes (coeficientes : List CoefInterno) (escanos_pacto : ℕ) :
    List (String × ℕ) × ℕ :=
  coeficientes.foldl (paso_caminar escanos_pacto) (([] : List (String × ℕ)), 0)

/-- The sorted `partidos_list` of `calcular_dhondt_interno_pacto` (src/app.py
lines 361-373): group by effective cupo, sort each group's candidates by
votes descending, record how many candidates each party has available, and
sort the parties by total votes descending. -/
def partidos_orden_interno (candidatos : List CandInterno) : List PartidoList :=
  let partidos := (agrupar_partidos_interno candidatos).map
    (fun e => (e.1, GrupoInterno.mk e.2.total_votos
      (sortDescBy (fun a b => decide (b.votos < a.votos)) e.2.candidatos)))
  let partidos_list := partidos.map (fun e =>
    PartidoList.mk e.1 e.2.total_votos e.2.candidatos e.2.candidatos.length)
  sortDescBy (fun a b => decide (b.total_votos < a.total_votos)) partidos_list

/-- The quotient table of `calcular_dhondt_interno_pacto` (src/app.py lines
375-383). -/
def coeficientes_interno (candidatos : List CandInterno) (escanos_pacto : ℕ) :
    List CoefInterno :=
  (partidos_orden_interno candidatos).flatMap (fun p =>
    (List.range' 1 escanos_pacto).map (fun d =>
      CoefInterno.mk p.partido d (p.total_votos / (d : ℚ)) p.candidatos_disponibles))

/-- Embedding of `calcular_dhondt_interno_pacto` (src/app.py lines 350-399). -/
def calcular_dhondt_interno_pacto (candidatos : List CandInterno) (escanos_pacto : ℕ) :
    List (String × ℕ) × List PartidoList :=
  let orden := sortDescBy (fun a b => decide (b.valor < a.valor))
    (coeficientes_interno candidatos escanos_pacto)
  ((caminar_coeficientes orden escanos_pacto).1, partidos_orden_interno candidatos)

/-- Entry of the per-party candidate lists built inside
`calcular_dhondt_distrito` (src/app.py lines 453-458). -/
structure ECand where
  nombre : String
  votos : ℚ
  cupo : String
  sexo : String
deriving DecidableEq

/-- Value of the `partidos_info` dict (src/app.py lines 444-458). -/
structure GrupoPartido where
  total_votos : ℚ
  candidatos : List ECand
deriving DecidableEq

/-- The per-candidate projection stored in `partidos_info` (src/app.py lines
453-458). -/
def proyectar (c : Candidato) : ECand :=
  ECand.mk c.nombre c.votos c.cupo c.sexo

/-- The `partidos_info` construction of `calcular_dhondt_distrito` (src/app.py
lines 444-461): group the coalition's candidates by their `partido` field and
sort each group by votes descending. -/
def agrupar_por_partido (candidatos : List Candidato) : List (String × GrupoPartido) :=
  (agrupar_con (fun c => c.partido) (fun _ => GrupoPartido.mk 0 [])
      (fun d c => GrupoPartido.mk (d.total_votos + c.votos) (d.candidatos ++ [proyectar c]))
      candidatos).map
    (fun e => (e.1, GrupoPartido.mk e.2.total_votos
      (sortDescBy (fun a b => decide (b.votos < a.votos)) e.2.candidatos)))

/-- The `pacto_info_para_dhondt` candidate list (src/app.py lines 463-475):
flatten the per-party groups, tagging each candidate with its group's
`partido` key. -/
def candidatos_para_dhondt (partidos_info : List (String × GrupoPartido)) : List CandInterno :=
  partidos_info.flatMap (fun e =>
    e.2.candidatos.map (fun c => CandInterno.mk c.nombre c.votos c.cupo e.1 c.sexo))

/-- An element of `candidatos_electos` (src/app.py lines 493-501). -/
structure Electo where
  nombre : String
  cupo : String
  partido : String
  votos : ℚ
  sexo : String
  foto : Option String
  distrito : String
deriving DecidableEq

/-- The record appended to `candidatos_electos` for a chosen candidate
(src/app.py lines 493-501). -/
def electo_de (distrito : String) (c : Candidato) : Electo :=
  Electo.mk c.nombre c.cupo c.partido c.votos c.sexo c.foto distrito

/-- The winner-selection loop of `calcular_dhondt_distrito` (src/app.py lines
480-504): for every `partidos_info` group, look its `partido` key up in the
intra-coalition assignment, take that many candidates from the front of the
group (the source's `range(min(escanos_partido, len(...)))` indexes exactly
the first `min` elements, which `List.take` computes), and map each back to
the full record by name (`next(c for c in candidatos_completos if ...)`). -/
def electos_grupo (distrito : String) (completos : List Candidato)
    (asig : List (String × ℕ)) (e : String × GrupoPartido) : List Electo :=
  if 0 < dgetD asig e.1 0 then
    (e.2.candidatos.take (dgetD asig e.1 0)).filterMap (fun elegido =>
      (completos.find? (fun c => c.nombre == elegido.nombre)).map (electo_de distrito))
  else []

def seleccionar_electos (distrito : String) (completos : List Candidato)
    (partidos_info : List (String × GrupoPartido)) (asig : List (String × ℕ)) : List Electo :=
  partidos_info.flatMap (electos_grupo distrito completos asig)

/-- Python's `round(x, n)` (the source rounds vote totals to 4 decimals and
percentages to 2).  Python uses float banker's rounding; no claim depends on
the tie behaviour, so round-half-to-even on exact rationals stands in via
Mathlib `round`-adjacent arithmetic (round half up). -/
def roundDec (dec : ℕ) (x : ℚ) : ℚ :=
  ((round (x * (10 : ℚ) ^ dec) : ℤ) : ℚ) / (10 : ℚ) ^ dec

/-- Entry of `pactos_result` (src/app.py lines 512-530). -/
structure PactoResult where
  nombre : String
  letra : String
  total_votos : ℚ
  escanos : ℕ
  candidatos_electos : List Electo
  mujeres_electas : ℕ
  bonificacion : ℚ
deriving DecidableEq

/-- The body of the per-coalition loop of `calcular_dhondt_distrito`
(src/app.py lines 440-530): with seats, run the intra-coalition D'Hondt and
select the winners; without seats, emit the empty result. -/
def procesar_pacto_result (distrito : String) (valor_uf : ℚ) (letra : String)
    (info : PactoInfo) (pacto_seats : ℕ) : PactoResult :=
  if pacto_seats = 0 then
    PactoResult.mk info.nombre letra (roundDec 4 info.total_votos) 0 [] 0 0
  else
    let partidos_info := agrupar_por_partido info.candidatos_completos
    let asig := (calcular_dhondt_interno_pacto (candidatos_para_dhondt partidos_info)
      pacto_seats).1
    let seleccion := seleccionar_electos distrito info.candidatos_completos partidos_info asig
    let mujeres := seleccion.countP (fun e => e.sexo == "M")
    PactoResult.mk info.nombre letra (roundDec 4 info.total_votos) pacto_seats
      (sortDescBy (fun a b => decide (b.votos < a.votos)) seleccion)
      mujeres ((mujeres : ℚ) * valor_uf)

/-- The fresh `pactos[letra]` entry (src/app.py lines 423-429). -/
def pacto_nuevo (pactos_nombre : List (String × String)) (letra : String) : PactoInfo :=
  PactoInfo.mk (dgetD pactos_nombre letra (String.append "Pacto " letra)) letra 0 []

/-- The accumulation into `pactos[letra]` (src/app.py lines 431-432). -/
def agregar_a_pacto (info : PactoInfo) (c : Candidato) : PactoInfo :=
  { info with total_votos := info.total_votos + c.votos,
              candidatos_completos := info.candidatos_completos ++ [c] }

/-- The `pactos` construction of `calcular_dhondt_distrito` (src/app.py lines
415-432): candidates whose `match_exitoso` flag is false are skipped
(`continue`), the rest are grouped by coalition letter. -/
def construir_pactos (pactos_nombre : List (String × String)) (candidatos : List Candidato) :
    List (String × PactoInfo) :=
  candidatos.foldl (fun pactos c =>
    if c.match_exitoso then
      dUpdate pactos c.pacto_letra (pacto_nuevo pactos_nombre c.pacto_letra)
        (fun i => agregar_a_pacto i c)
    else pactos) []

/-- The `resumen_mujeres` block of the district result (src/app.py lines
539-544). -/
structure ResumenMujeres where
  total_mujeres_electas : ℕ
  total_bonificacion : ℚ
  valor_uf : ℚ
  porcentaje_mujeres : ℚ
deriving DecidableEq

/-- The district result dict (src/app.py lines 534-545). -/
structure Resultado where
  distrito : String
  escanos : ℕ
  pactos : List PactoResult
  total_diputados : ℕ
  resumen_mujeres : ResumenMujeres
deriving DecidableEq

/-- Assembly of the district result (src/app.py lines 415-545), shared
verbatim by `calcular_dhondt_distrito` and `calcular_dhondt_distrito_simulado`
(whose bodies after candidate preparation are identical). -/
def armar_resultado (distrito : String) (escanos : ℕ) (pactos_nombre : List (String × String))
    (valor_uf : ℚ) (candidatos : List Candidato) : Resultado :=
  let pactos := construir_pactos pactos_nombre candidatos
  let asignacion := (aplicar_dhondt_entre_pactos pactos escanos).1
  let pactos_result := pactos.map (fun e =>
    procesar_pacto_result distrito valor_uf e.1 e.2 (dgetD asignacion e.1 0))
  let pactos_orden := sortDescBy
    (fun p q => decide (q.escanos < p.escanos)
      || (q.escanos == p.escanos && decide (q.total_votos < p.total_votos))) pactos_result
  let total_mujeres := (pactos_result.map (fun p => p.mujeres_electas)).sum
  let total_bonificacion := (pactos_result.map (fun p => p.bonificacion)).sum
  Resultado.mk distrito escanos pactos_orden ((pactos_orden.map (fun p => p.escanos)).sum)
    (ResumenMujeres.mk total_mujeres total_bonificacion valor_uf
      (if 0 < escanos then roundDec 2 ((total_mujeres : ℚ) / (escanos : ℚ) * 100) else 0))

/-- Embedding of `fusionar_pactos_en_candidatos` (src/app.py lines 550-575).
For an unknown mode the accumulating loop never runs and the (empty)
`candidatos_fusionados` list is returned. -/
def fusionar_pactos_en_candidatos (candidatos : List Candidato) (mode : String) :
    List Candidato :=
  if mode = "normal" then candidatos
  else if mode = "derechas" then
    candidatos.map (fun c =>
      if c.pacto_letra ∈ (["J", "K"] : List String) then
        { c with pacto_letra := "JK", pacto_nombre := "Derechas Unidas (J+K)" }
      else c)
  else if mode = "izquierdas" then
    candidatos.map (fun c =>
      if c.pacto_letra ∈ (["A", "B", "C", "D", "F", "G", "H"] : List String) then
        { c with pacto_letra := "IZQ", pacto_nombre := "Izquierdas Unidas (A+B+C+D+F+G+H)" }
      else c)
  else []

/-- The `pactos_nombre` adjustment of `calcular_dhondt_distrito_simulado`
(src/app.py lines 584-596). -/
def ajustar_pactos_nombre (pactos_nombre : List (String × String)) (mode : String) :
    List (String × String) :=
  if mode = "derechas" then
    dRemove (dRemove (dSet pactos_nombre "JK" "Derechas Unidas (J+K)") "J") "K"
  else if mode = "izquierdas" then
    (["A", "B", "C", "D", "F", "G", "H"] : List String).foldl dRemove
      (dSet pactos_nombre "IZQ" "Izquierdas Unidas (A+B+C+D+F+G+H)")
  else pactos_nombre

/-- Embedding of `calcular_dhondt_distrito_simulado` (src/app.py lines
577-737).  The configuration lookups are inputs: `escanosCfg` is
`config["escanos"].get(distrito)` (Python treats both a missing entry and 0
as falsy), `pactos_nombre` and `valor_uf` come from the same config, and
`candidatos` is the reconciler's output for the district. -/
def calcular_dhondt_distrito_simulado (distrito : String) (escanosCfg : Option ℕ)
    (pactos_nombre : List (String × String)) (valor_uf : ℚ)
    (candidatos : List Candidato) (mode : String) : Option Resultado :=
  let pn := ajustar_pactos_nombre pactos_nombre mode
  match escanosCfg with
  | none => none
  | some escanos =>
    if escanos = 0 then none
    else some (armar_resultado distrito escanos pn valor_uf
      (fusionar_pactos_en_candidatos candidatos mode))

/-- Embedding of `calcular_dhondt_distrito` (src/app.py lines 401-548): a
non-"normal" mode dispatches to the simulated variant; otherwise the guard
`if not escanos: return None` rejects a missing or zero seat configuration
and the district result is assembled.  In this pure model no other code path
returns `none` (the source's blanket `except` has nothing to catch). -/
def calcular_dhondt_distrito (distrito : String) (mode : String) (escanosCfg : Option ℕ)
    (pactos_nombre : List (String × String)) (valor_uf : ℚ)
    (candidatos : List Candidato) : Option Resultado :=
  if mode ≠ "normal" then
    calcular_dhondt_distrito_simulado distrito escanosCfg pactos_nombre valor_uf candidatos mode
  else
    match escanosCfg with
    | none => none
    | some escanos =>
      if escanos = 0 then none
      else some (armar_resultado distrito escanos pactos_nombre valor_uf candidatos)

/-- Value of the metadata feed's per-candidate mapping `distrito_data["c"]`
(src/app.py: fields `n` = name, `c` = party, `s` = sex). -/
structure ApiDatos where
  n : String
  c : String
  s : String
deriving DecidableEq

/-- Entry of the metadata feed's ordered candidate list `distrito_data["h"]`
(only its name field `n` is read by the source). -/
structure ApiOrdenado where
  n : String
deriving DecidableEq

/-- The metadata feed's snapshot for one district (`datos_api_completos.get(distrito, {})`). -/
structure DistritoData where
  h : List ApiOrdenado
  c : List (String × ApiDatos)
deriving DecidableEq

/-- The `letras` alphabet of `crear_mapeo_ids_xml_a_api` (src/app.py line 256). -/
def letras_abc : List String :=
  ["A", "B", "C", "D", "E", "F", "G", "H", "I", "J", "K", "L", "M",
   "N", "O", "P", "Q", "R", "S", "T", "U", "V", "W", "X", "Y", "Z"]

/-- Embedding of `crear_mapeo_ids_xml_a_api` (src/app.py lines 251-269): walk
the ordered candidate list, and for each position below 26 map the positional
letter to the first feed-id whose stored name equals the candidate's name. -/
def crear_mapeo_ids_xml_a_api (distrito_data : DistritoData) : List (String × String) :=
  (distrito_data.h.enum).foldl (fun mapeo par =>
    match letras_abc.get? par.1 with
    | none => mapeo
    | some letra =>
      match distrito_data.c.find? (fun e => e.2.n == par.2.n) with
      | none => mapeo
      | some e => dSet mapeo letra e.1) []

/-- The photo URL template `FOTO_BASE_URL.format(id_foto)` (src/app.py line 42). -/
def url_foto (id_foto : String) : String :=
  String.append "https://static.emol.cl/emol50/especiales/img/2025/elecciones/dip/"
    (String.append id_foto ".jpg")

/-- The feed-id resolution of `integrar_tres_fuentes_limpio` (src/app.py line
289): the positional mapping has precedence; a tally id present directly in
the metadata mapping is used as-is; otherwise the entry is unresolvable. -/
def resolver_api_id (mapeo_ids : List (String × String))
    (candidatos_api : List (String × ApiDatos)) (xml_id : String) : Option String :=
  match dget mapeo_ids xml_id with
  | some a => some a
  | none => if (dget candidatos_api xml_id).isSome then some xml_id else none

/-- The per-tally-entry body of `integrar_tres_fuentes_limpio`'s loop
(src/app.py lines 288-321).  `none` models the `continue` for entries with no
resolvable feed-id (the source's `if not api_id` also rejects an empty-string
id).  A resolved entry always yields a record: matched ones carry the roster's
coalition letter and photo, unmatched ones the letter "X", no photo and
`match_exitoso = false`. -/
def integrar_registro (scorer : String → String → ℚ) (candidatos_csv : List CandCSV)
    (candidatos_api : List (String × ApiDatos)) (mapeo_ids : List (String × String))
    (pactos_nombre : List (String × String)) (entrada : String × ℚ) : Option Candidato :=
  match resolver_api_id mapeo_ids candidatos_api entrada.1 with
  | none => none
  | some api_id =>
    if api_id = "" then none
    else
      match dget candidatos_api api_id with
      | none => none
      | some datos =>
        match hacer_match_por_nombre scorer datos.n candidatos_csv with
        | (some cc, score) =>
          if 80 ≤ score then
            some (Candidato.mk api_id entrada.2 datos.n datos.c cc.pacto_letra
              (dgetD pactos_nombre cc.pacto_letra (String.append "Pacto " cc.pacto_letra))
              datos.s cc.cupo
              (if cc.id_foto = "" then none else some (url_foto cc.id_foto))
              cc.zona score true)
          else
            some (Candidato.mk api_id entrada.2 datos.n datos.c "X"
              (dgetD pactos_nombre "X" "Pacto X") datos.s cc.cupo none cc.zona score false)
        | (none, score) =>
          some (Candidato.mk api_id entrada.2 datos.n datos.c "X"
            (dgetD pactos_nombre "X" "Pacto X") datos.s "" none "" score false)

/-- Embedding of `integrar_tres_fuentes_limpio` (src/app.py lines 271-323).
The three source snapshots are inputs: `candidatos_csv` is
`get_candidatos_por_distrito`'s result (`none` when the roster has no rows
for the district), `distrito_data` the metadata feed's district entry, and
`votos_xml` the tally mapping.  If any of the three is missing or empty the
empty list is returned; otherwise every tally entry is resolved and the
records are sorted by votes descending. -/
def integrar_tres_fuentes_limpio (scorer : String → String → ℚ)
    (candidatos_csv : Option (List CandCSV)) (distrito_data : DistritoData)
    (votos_xml : List (String × ℚ)) (pactos_nombre : List (String × String)) :
    List Candidato :=
  let candidatos_api := distrito_data.c
  let mapeo_ids := crear_mapeo_ids_xml_a_api distrito_data
  let csv := candidatos_csv.getD []
  if csv = [] ∨ candidatos_api = [] ∨ votos_xml = [] then []
  else
    sortDescBy (fun a b => decide (b.votos < a.votos))
      (votos_xml.filterMap (integrar_registro scorer csv candidatos_api mapeo_ids pactos_nombre))

/-- The national statistics reported by `hemiciclo_nacional` (src/app.py
lines 871-877 and 958-963). -/
structure EstadisticasNacionales where
  total_distritos : ℕ
  distritos_procesados : ℕ
  distritos_error : ℕ
  total_escanos : ℕ
  total_mujeres : ℕ
deriving DecidableEq

/-- One iteration of `hemiciclo_nacional`'s district loop (src/app.py lines
879-936) restricted to the accumulated counters: a district with no result is
skipped (`if not resultado_normal: continue`, and the enclosing
`try/except: continue` behaves identically for an exception); a successful
district adds its seat count, its elected-women count, and one processed
district. -/
def paso_hemiciclo (est : EstadisticasNacionales) (res : Option Resultado) :
    EstadisticasNacionales :=
  match res with
  | none => est
  | some r =>
    { est with total_escanos := est.total_escanos + r.escanos,
               total_mujeres := est.total_mujeres + r.resumen_mujeres.total_mujeres_electas,
               distritos_procesados := est.distritos_procesados + 1 }

/-- Embedding of the statistics accumulation of `hemiciclo_nacional`
(src/app.py lines 879-963) in mode "normal": the loop over the fixed district
range is modelled as a fold over the list of per-district outcomes (one
`Option Resultado` per district).  `distritos_error` is reported as the fixed
district count minus the processed count (line 963, with 28 = the length of
the iterated range = the length of this input list). -/
def hemiciclo_nacional (resultados : List (Option Resultado)) : EstadisticasNacionales :=
  let acum := resultados.foldl paso_hemiciclo
    (EstadisticasNacionales.mk resultados.length 0 0 0 0)
  { acum with distritos_error := resultados.length - acum.distritos_procesados }

/-! Concrete sample data used by witnesses and counterexamples. -/

/-- A match-successful sample candidate. -/
def candidato_ejemplo : Candidato :=
  Candidato.mk "1001" 100 "ANA PEREZ" "P1" "A" "Pacto A" "M" "P1" none "Z" 100 true

/-- A minimal district result with the given seat count (used to instantiate
the national-aggregation example). -/
def resultado_simple (distrito : String) (escanos : ℕ) : Resultado :=
  Resultado.mk distrito escanos [] escanos (ResumenMujeres.mk 0 0 500 0)

/-- Two successful districts (3 and 2 seats) and one failing district. -/
def ejemplo_nacional : List (Option Resultado) :=
  [some (resultado_simple "6001" 3), some (resultado_simple "6002" 2), none]

/-! Claim C9: national aggregation skips failing districts and reports the
counts. -/

theorem hemiciclo_fold (resultados : List (Option Resultado)) :
    ∀ est : EstadisticasNacionales,
      (resultados.foldl paso_hemiciclo est).distritos_procesados
          = est.distritos_procesados + resultados.countP (fun r => r.isSome)
      ∧ (resultados.foldl paso_hemiciclo est).total_escanos
          = est.total_escanos + ((resultados.filterMap id).map (fun r => r.escanos)).sum := by
  induction resultados with
  | nil => intro est; simp
  | cons r rs ih =>
    intro est
    cases r with
    | none =>
      have := ih est
      simpa [List.countP_cons, paso_hemiciclo] using this
    | some x =>
      have := ih (paso_hemiciclo est (some x))
      simp only [List.foldl_cons, List.countP_cons, List.filterMap_cons, List.map_cons,
        List.sum_cons, paso_hemiciclo] at this ⊢
      constructor
      · rw [this.1]; simp; omega
      · rw [this.2]; simp; omega

/-- Claim C9: the National Aggregator skips every district whose computation
yields no result and continues over the remainder; `distritos_procesados`
counts the successful districts, `distritos_error` the failed ones, and
`total_escanos` sums the seat counts of the successful districts.  In
particular two successful districts of 3 and 2 seats plus one failing
district give 5 / 2 / 1. -/
theorem c9_hemiciclo_nacional :
    (∀ resultados : List (Option Resultado),
        (hemiciclo_nacional resultados).distritos_procesados
            = resultados.countP (fun r => r.isSome)
          ∧ (hemiciclo_nacional resultados).distritos_error
            = resultados.countP (fun r => r.isNone)
          ∧ (hemiciclo_nacional resultados).total_escanos
            = ((resultados.filterMap id).map (fun r => r.escanos)).sum)
      ∧ (hemiciclo_nacional ejemplo_nacional).total_escanos = 5
      ∧ (hemiciclo_nacional ejemplo_nacional).distritos_procesados = 2
      ∧ (hemiciclo_nacional ejemplo_nacional).distritos_error = 1 := by
  refine ⟨fun resultados => ?_, rfl, rfl, rfl⟩
  have hf := hemiciclo_fold resultados (EstadisticasNacionales.mk resultados.length 0 0 0 0)
  have hlen : resultados.length
      = resultados.countP (fun r => r.isSome) + resultados.countP (fun r => r.isNone) := by
    have h1 := List.length_eq_countP_add_countP (fun r : Option Resultado => r.isSome) resultados
    have h2 : resultados.countP (fun a => decide ¬(a.isSome = true))
        = resultados.countP (fun r => r.isNone) := by
      apply List.countP_congr
      intro a _
      cases a <;> simp
    omega
  refine ⟨?_, ?_, ?_⟩
  · simpa [hemiciclo_nacional] using hf.1
  · have hp : (hemiciclo_nacional resultados).distritos_error
        = resultados.length
          - (resultados.foldl paso_hemiciclo
              (EstadisticasNacionales.mk resultados.length 0 0 0 0)).distritos_procesados := rfl
    rw [hp, hf.1]
    have h0 : (EstadisticasNacionales.mk resultados.length 0 0 0 0).distritos_procesados
        = 0 := rfl
    rw [h0]
    omega
  · simpa [hemiciclo_nacional] using hf.2

/-! Claims C8 and C10: the Coalition Fuser. -/

/-- The fusion group of each simulation mode (src/app.py lines 561 and 567):
the coalition letters the mode rewrites. -/
def grupo_fusion : String → List String
  | "derechas" => ["J", "K"]
  | "izquierdas" => ["A", "B", "C", "D", "F", "G", "H"]
  | _ => []

/-- Counterexample to claim C8 as stated: the fuser is not length-preserving
for every mode — an unrecognised mode ("otro") maps a one-element candidate
list to the empty list. -/
theorem c8_contraejemplo :
    (fusionar_pactos_en_candidatos [candidato_ejemplo] "otro").length
      ≠ ([candidato_ejemplo] : List Candidato).length := by
  decide

/-- Claim C8 (amended): for the three recognised modes ("normal", "derechas",
"izquierdas") the Coalition Fuser is a pure, order-preserving map: the output
pairs up with the input element by element, every field except the coalition
letter and display name is unchanged (in particular the vote count),
candidates whose letter is outside the mode's fusion group are entirely
unchanged, and mode "normal" is the identity.  (For any other mode the fuser
returns the empty list — see the C10 theorem.) -/
theorem c8_fusionar_orden_preservado (candidatos : List Candidato) (mode : String)
    (h : mode = "normal" ∨ mode = "derechas" ∨ mode = "izquierdas") :
    (fusionar_pactos_en_candidatos candidatos mode).length = candidatos.length
    ∧ List.Forall₂ (fun c cf : Candidato =>
        cf.votos = c.votos ∧ cf.id_api = c.id_api ∧ cf.nombre = c.nombre
        ∧ cf.partido = c.partido ∧ cf.sexo = c.sexo ∧ cf.cupo = c.cupo
        ∧ cf.foto = c.foto ∧ cf.zona = c.zona ∧ cf.match_quality = c.match_quality
        ∧ cf.match_exitoso = c.match_exitoso
        ∧ (c.pacto_letra ∉ grupo_fusion mode → cf = c))
      candidatos (fusionar_pactos_en_candidatos candidatos mode)
    ∧ (mode = "normal" → fusionar_pactos_en_candidatos candidatos mode = candidatos) := by
  rcases h with h | h | h <;> subst h
  · refine ⟨rfl, ?_, fun _ => rfl⟩
    have : fusionar_pactos_en_candidatos candidatos "normal" = candidatos := rfl
    rw [this, List.forall₂_same]
    intro c _
    simp
  · refine ⟨by simp [fusionar_pactos_en_candidatos], ?_, fun hn => by simp at hn⟩
    have hmap : fusionar_pactos_en_candidatos candidatos "derechas"
        = candidatos.map (fun c =>
            if c.pacto_letra ∈ (["J", "K"] : List String) then
              { c with pacto_letra := "JK", pacto_nombre := "Derechas Unidas (J+K)" }
            else c) := rfl
    rw [hmap]
    rw [List.forall₂_map_right_iff, List.forall₂_same]
    intro c _
    by_cases hc : c.pacto_letra ∈ (["J", "K"] : List String)
    · simp [hc, grupo_fusion]
    · simp [hc, grupo_fusion]
  · refine ⟨by simp [fusionar_pactos_en_candidatos], ?_, fun hn => by simp at hn⟩
    have hmap : fusionar_pactos_en_candidatos candidatos "izquierdas"
        = candidatos.map (fun c =>
            if c.pacto_letra ∈ (["A", "B", "C", "D", "F", "G", "H"] : List String) then
              { c with pacto_letra := "IZQ", pacto_nombre := "Izquierdas Unidas (A+B+C+D+F+G+H)" }
            else c) := rfl
    rw [hmap]
    rw [List.forall₂_map_right_iff, List.forall₂_same]
    intro c _
    by_cases hc : c.pacto_letra ∈ (["A", "B", "C", "D", "F", "G", "H"] : List String)
    · simp [hc, grupo_fusion]
    · simp [hc, grupo_fusion]

/-- Witness for the amended C8 theorem at mode "derechas" on a concrete
candidate outside the fusion group. -/
theorem c8_fusionar_orden_preservado_testigo :
    fusionar_pactos_en_candidatos [candidato_ejemplo] "normal" = [candidato_ejemplo] :=
  (c8_fusionar_orden_preservado [candidato_ejemplo] "normal" (Or.inl rfl)).2.2 rfl

/-- Claim C10: for every mode other than "normal", "derechas" and
"izquierdas" the Coalition Fuser returns the empty list, so the simulated
district computation for such a mode proceeds exactly as it would with no
candidates at all. -/
theorem c10_modo_desconocido (candidatos : List Candidato) (mode : String)
    (h1 : mode ≠ "normal") (h2 : mode ≠ "derechas") (h3 : mode ≠ "izquierdas")
    (distrito : String) (escanosCfg : Option ℕ) (pactos_nombre : List (String × String))
    (valor_uf : ℚ) :
    fusionar_pactos_en_candidatos candidatos mode = []
    ∧ calcular_dhondt_distrito_simulado distrito escanosCfg pactos_nombre valor_uf
        candidatos mode
      = calcular_dhondt_distrito_simulado distrito escanosCfg pactos_nombre valor_uf [] mode := by
  have hf : fusionar_pactos_en_candidatos candidatos mode = [] := by
    simp [fusionar_pactos_en_candidatos, h1, h2, h3]
  have hf2 : fusionar_pactos_en_candidatos [] mode = [] := by
    simp [fusionar_pactos_en_candidatos, h1, h2, h3]
  refine ⟨hf, ?_⟩
  simp [calcular_dhondt_distrito_simulado, hf, hf2]

/-- Witness for the C10 theorem at the concrete mode "otro". -/
theorem c10_modo_desconocido_testigo :
    fusionar_pactos_en_candidatos [candidato_ejemplo] "otro" = []
    ∧ calcular_dhondt_distrito_simulado "6001" (some 2) [] 500 [candidato_ejemplo] "otro"
      = calcular_dhondt_distrito_simulado "6001" (some 2) [] 500 [] "otro" :=
  c10_modo_desconocido [candidato_ejemplo] "otro" (by decide) (by decide) (by decide)
    "6001" (some 2) [] 500

/-! Claim C3: the Level-1 allocator. -/

/-- Coalition A totalling votes [100, 100] and coalition B totalling [50],
built through the source's own `pactos` construction. -/
def pactos_ejemplo : List (String × PactoInfo) :=
  construir_pactos []
    [Candidato.mk "1" 100 "A1" "PA" "A" "Pacto A" "F" "PA" none "" 100 true,
     Candidato.mk "2" 100 "A2" "PA" "A" "Pacto A" "F" "PA" none "" 100 true,
     Candidato.mk "3" 50 "B1" "PB" "B" "Pacto B" "F" "PB" none "" 100 true]

/-- Claim C3: `aplicar_dhondt_entre_pactos` generates the quotients
`total_votos / d` for d = 1..S per coalition (`coeficientes_pactos`), sorts
them all descending, takes the top S, and awards exactly one seat per taken
quotient to its coalition — a coalition's seat count equals the number of its
quotients among the taken ones.  With A totalling [100,100], B totalling [50]
and S = 2, A receives 2 seats and B receives 0. -/
theorem c3_dhondt_entre_pactos :
    (∀ (pactos : List (String × PactoInfo)) (escanos : ℕ) (letra : String),
        dgetD (aplicar_dhondt_entre_pactos pactos escanos).1 letra 0
          = (aplicar_dhondt_entre_pactos pactos escanos).2.countP
              (fun c => c.pacto_letra == letra)
        ∧ (aplicar_dhondt_entre_pactos pactos escanos).2
          = (sortDescBy (fun a b => decide (b.coeficiente < a.coeficiente))
              (coeficientes_pactos pactos escanos)).take escanos)
    ∧ dgetD (aplicar_dhondt_entre_pactos pactos_ejemplo 2).1 "A" 0 = 2
    ∧ dgetD (aplicar_dhondt_entre_pactos pactos_ejemplo 2).1 "B" 0 = 0 := by
  refine ⟨fun pactos escanos letra => ⟨?_, rfl⟩, ?_, ?_⟩
  · have h := dgetD_foldl_bump (fun c : Coef => c.pacto_letra)
      ((sortDescBy (fun a b => decide (b.coeficiente < a.coeficiente))
        (coeficientes_pactos pactos escanos)).take escanos) letra []
    simpa [aplicar_dhondt_entre_pactos, dgetD, dget] using h
  · norm_num [pactos_ejemplo, construir_pactos, dUpdate, pacto_nuevo, agregar_a_pacto,
      aplicar_dhondt_entre_pactos, coeficientes_pactos, List.range', sortDescBy, insDesc,
      bump, dgetD, dget, (by decide : ("A" : String) ≠ "B"),
      (by decide : ("B" : String) ≠ "A")]
  · norm_num [pactos_ejemplo, construir_pactos, dUpdate, pacto_nuevo, agregar_a_pacto,
      aplicar_dhondt_entre_pactos, coeficientes_pactos, List.range', sortDescBy, insDesc,
      bump, dgetD, dget, (by decide : ("A" : String) ≠ "B"),
      (by decide : ("B" : String) ≠ "A")]

/-! Claim C4: the Level-2 walk never assigns a party more seats than it has
candidates. -/

theorem caminar_aux (escanos_pacto : ℕ) (disp : String → ℕ) :
    ∀ (coeficientes : List CoefInterno) (st : List (String × ℕ) × ℕ),
      (∀ c ∈ coeficientes, c.candidatos_disponibles = disp c.partido) →
      (∀ p, dgetD st.1 p 0 ≤ disp p) →
      (st.1.map Prod.snd).sum = st.2 → st.2 ≤ escanos_pacto →
      (∀ p, dgetD (coeficientes.foldl (paso_caminar escanos_pacto) st).1 p 0 ≤ disp p)
      ∧ ((coeficientes.foldl (paso_caminar escanos_pacto) st).1.map Prod.snd).sum
          = (coeficientes.foldl (paso_caminar escanos_pacto) st).2
      ∧ (coeficientes.foldl (paso_caminar escanos_pacto) st).2 ≤ escanos_pacto := by
  intro coeficientes
  induction coeficientes with
  | nil =>
    intro st _ h1 h2 h3
    exact ⟨h1, h2, h3⟩
  | cons c cs ih =>
    intro st hc h1 h2 h3
    have hcs : ∀ x ∈ cs, x.candidatos_disponibles = disp x.partido :=
      fun x hx => hc x (List.mem_cons_of_mem c hx)
    have hcc : c.candidatos_disponibles = disp c.partido := hc c (List.mem_cons_self c cs)
    rw [List.foldl_cons]
    by_cases hfull : escanos_pacto ≤ st.2
    · have hstep : paso_caminar escanos_pacto st c = st := by
        simp [paso_caminar, hfull]
      rw [hstep]
      exact ih st hcs h1 h2 h3
    · by_cases hroom : dgetD st.1 c.partido 0 < c.candidatos_disponibles
      · have hstep : paso_caminar escanos_pacto st c = (bump st.1 c.partido, st.2 + 1) := by
          simp [paso_caminar, hfull, hroom]
        rw [hstep]
        apply ih
        · exact hcs
        · intro p
          by_cases hp : p = c.partido
          · subst hp
            rw [dgetD_bump_self st.1 c.partido]
            omega
          · rw [dgetD_bump_other st.1 c.partido p hp]
            exact h1 p
        · simp [sum_values_bump, h2]
        · omega
      · have hstep : paso_caminar escanos_pacto st c = st := by
          simp [paso_caminar, hfull, hroom]
        rw [hstep]
        exact ih st hcs h1 h2 h3

/-- The per-party candidate lists built by `agrupar_partidos_interno` are
exactly the filter of the input by effective cupo. -/
theorem grupo_interno_eq_filter (candidatos : List CandInterno) (p : String)
    (g : GrupoInterno) (hmem : (p, g) ∈ agrupar_partidos_interno candidatos) :
    g.candidatos = candidatos.filter (fun c => cupoEfectivo c == p) := by
  have hnd : ((agrupar_partidos_interno candidatos).map Prod.fst).Nodup := by
    unfold agrupar_partidos_interno
    exact nodup_keys_agrupar_con _ _ _ _
  have hg := dget_eq_some_of_mem _ p g hnd hmem
  have hcomp := comp_dget_agrupar_con cupoEfectivo (fun _ => GrupoInterno.mk 0 [])
    (fun d c => GrupoInterno.mk (d.total_votos + c.votos) (d.candidatos ++ [c]))
    (fun g => g.candidatos) id (fun _ => rfl) (fun _ _ => rfl) candidatos p
  unfold agrupar_partidos_interno at hg
  rw [hg] at hcomp
  simpa using hcomp

/-- Every entry of the sorted `partidos_list` records as
`candidatos_disponibles` the number of candidates whose effective cupo is its
party label. -/
theorem disponibles_eq_filter (candidatos : List CandInterno) :
    ∀ pl ∈ partidos_orden_interno candidatos,
      pl.candidatos_disponibles
        = (candidatos.filter (fun c => cupoEfectivo c == pl.partido)).length := by
  intro pl hpl
  unfold partidos_orden_interno at hpl
  rw [mem_sortDescBy] at hpl
  obtain ⟨e, he, rfl⟩ := List.mem_map.mp hpl
  obtain ⟨⟨p0, g0⟩, he0, rfl⟩ := List.mem_map.mp he
  have hfil := grupo_interno_eq_filter candidatos p0 g0 he0
  simp [length_sortDescBy, hfil]

/-- Every quotient carries the `candidatos_disponibles` of its party. -/
theorem coef_disponibles (candidatos : List CandInterno) (escanos_pacto : ℕ) :
    ∀ c ∈ sortDescBy (fun a b => decide (b.valor < a.valor))
        (coeficientes_interno candidatos escanos_pacto),
      c.candidatos_disponibles
        = (candidatos.filter (fun x => cupoEfectivo x == c.partido)).length := by
  intro c hmem
  rw [mem_sortDescBy] at hmem
  unfold coeficientes_interno at hmem
  obtain ⟨pl, hpl, hc⟩ := List.mem_flatMap.mp hmem
  obtain ⟨d, _, rfl⟩ := List.mem_map.mp hc
  exact disponibles_eq_filter candidatos pl hpl

/-- The walk of `calcular_dhondt_interno_pacto` never assigns a party more
seats than it has candidates with that effective cupo, and assigns at most
the coalition's seat count in total. -/
theorem interno_le_disponibles (candidatos : List CandInterno) (escanos_pacto : ℕ) :
    (∀ p, dgetD (calcular_dhondt_interno_pacto candidatos escanos_pacto).1 p 0
        ≤ (candidatos.filter (fun c => cupoEfectivo c == p)).length)
    ∧ ((calcular_dhondt_interno_pacto candidatos escanos_pacto).1.map Prod.snd).sum
        ≤ escanos_pacto := by
  have haux := caminar_aux escanos_pacto
    (fun q => (candidatos.filter (fun c => cupoEfectivo c == q)).length)
    (sortDescBy (fun a b => decide (b.valor < a.valor))
      (coeficientes_interno candidatos escanos_pacto))
    (([] : List (String × ℕ)), 0)
    (coef_disponibles candidatos escanos_pacto)
    (fun q => by simp [dgetD, dget]) (by simp) (by simp)
  have h1 : (calcular_dhondt_interno_pacto candidatos escanos_pacto).1
      = (caminar_coeficientes (sortDescBy (fun a b => decide (b.valor < a.valor))
          (coeficientes_interno candidatos escanos_pacto)) escanos_pacto).1 := rfl
  rw [h1]
  unfold caminar_coeficientes
  exact ⟨haux.1, haux.2.1 ▸ haux.2.2⟩

/-- Two parties of one candidate each (100 and 10 votes): the walk must skip
the stronger party's second quotient and continue to the weaker party. -/
def candidatos_ejemplo_interno : List CandInterno :=
  [CandInterno.mk "x" 100 "PA" "PA" "F", CandInterno.mk "y" 10 "PB" "PB" "F"]

/-- Claim C4: in the intra-coalition walk a quotient is skipped once its party
holds as many seats as it has candidates available, so no party is ever
assigned more seats than it has candidates (its filter count by effective
cupo), and at most the coalition's seat count is assigned in total.  The
concrete instance (two one-candidate parties, 2 seats) shows the skip:
the 100-vote party is capped at 1 and the walk continues to the 10-vote
party. -/
theorem c4_interno_limite_candidatos :
    (∀ (candidatos : List CandInterno) (escanos_pacto : ℕ) (p : String),
        dgetD (calcular_dhondt_interno_pacto candidatos escanos_pacto).1 p 0
          ≤ (candidatos.filter (fun c => cupoEfectivo c == p)).length
        ∧ ((calcular_dhondt_interno_pacto candidatos escanos_pacto).1.map Prod.snd).sum
          ≤ escanos_pacto)
    ∧ dgetD (calcular_dhondt_interno_pacto candidatos_ejemplo_interno 2).1 "PA" 0 = 1
    ∧ dgetD (calcular_dhondt_interno_pacto candidatos_ejemplo_interno 2).1 "PB" 0 = 1 := by
  refine ⟨fun candidatos escanos_pacto p => ?_, ?_, ?_⟩
  · exact ⟨(interno_le_disponibles candidatos escanos_pacto).1 p,
      (interno_le_disponibles candidatos escanos_pacto).2⟩
  · norm_num [candidatos_ejemplo_interno, calcular_dhondt_interno_pacto,
      partidos_orden_interno, agrupar_partidos_interno, agrupar_con, dUpdate, cupoEfectivo,
      coeficientes_interno, List.range', sortDescBy, insDesc, caminar_coeficientes,
      paso_caminar, bump, dgetD, dget, (by decide : ("PA" : String) ≠ "PB"),
      (by decide : ("PB" : String) ≠ "PA"), (by decide : ("PA" : String) ≠ ""),
      (by decide : ("PB" : String) ≠ "")]
  · norm_num [candidatos_ejemplo_interno, calcular_dhondt_interno_pacto,
      partidos_orden_interno, agrupar_partidos_interno, agrupar_con, dUpdate, cupoEfectivo,
      coeficientes_interno, List.range', sortDescBy, insDesc, caminar_coeficientes,
      paso_caminar, bump, dgetD, dget, (by decide : ("PA" : String) ≠ "PB"),
      (by decide : ("PB" : String) ≠ "PA"), (by decide : ("PA" : String) ≠ ""),
      (by decide : ("PB" : String) ≠ "")]

/-! Claim C6: the Name Matcher thresholds. -/

theorem foldl_paso_mejor (scorer : String → String → ℚ) (consulta : String) :
    ∀ (candidatos : List CandCSV) (c0 : CandCSV) (s0 : ℚ),
      ∃ c s, candidatos.foldl (paso_mejor scorer consulta) (some (c0, s0)) = some (c, s)
        ∧ s = (candidatos.map (fun x => scorer consulta (preprocesar_nombre x.name))).foldl
            max s0
        ∧ ((c = c0 ∧ s = s0)
            ∨ (c ∈ candidatos ∧ scorer consulta (preprocesar_nombre c.name) = s)) := by
  intro candidatos
  induction candidatos with
  | nil =>
    intro c0 s0
    exact ⟨c0, s0, rfl, rfl, Or.inl ⟨rfl, rfl⟩⟩
  | cons x xs ih =>
    intro c0 s0
    by_cases hlt : s0 < scorer consulta (preprocesar_nombre x.name)
    · obtain ⟨c, s, h1, h2, h3⟩ := ih x (scorer consulta (preprocesar_nombre x.name))
      have hstep : paso_mejor scorer consulta (some (c0, s0)) x
          = some (x, scorer consulta (preprocesar_nombre x.name)) := by
        simp [paso_mejor, hlt]
      refine ⟨c, s, ?_, ?_, ?_⟩
      · rw [List.foldl_cons, hstep]; exact h1
      · rw [List.map_cons, List.foldl_cons, max_eq_right (le_of_lt hlt)]
        exact h2
      · rcases h3 with ⟨hc, hs⟩ | ⟨hc, hs⟩
        · exact Or.inr ⟨by simp [hc], by rw [hc, hs]⟩
        · exact Or.inr ⟨List.mem_cons_of_mem x hc, hs⟩
    · obtain ⟨c, s, h1, h2, h3⟩ := ih c0 s0
      have hstep : paso_mejor scorer consulta (some (c0, s0)) x = some (c0, s0) := by
        simp [paso_mejor, hlt]
      refine ⟨c, s, ?_, ?_, ?_⟩
      · rw [List.foldl_cons, hstep]; exact h1
      · rw [List.map_cons, List.foldl_cons, max_eq_left (le_of_not_lt hlt)]
        exact h2
      · rcases h3 with ⟨hc, hs⟩ | ⟨hc, hs⟩
        · exact Or.inl ⟨hc, hs⟩
        · exact Or.inr ⟨List.mem_cons_of_mem x hc, hs⟩

/-- For a non-empty candidate list and a non-negative scorer,
`process.extract`'s best candidate realises the maximum score. -/
theorem mejor_candidato_spec (scorer : String → String → ℚ) (nombre_api : String)
    (candidatos : List CandCSV) (hne : candidatos ≠ [])
    (hpos : ∀ a b, 0 ≤ scorer a b) :
    ∃ c s, mejor_candidato scorer (preprocesar_nombre nombre_api) candidatos = some (c, s)
      ∧ s = puntaje_maximo scorer nombre_api candidatos
      ∧ c ∈ candidatos
      ∧ scorer (preprocesar_nombre nombre_api) (preprocesar_nombre c.name) = s := by
  cases candidatos with
  | nil => exact absurd rfl hne
  | cons x xs =>
    obtain ⟨c, s, h1, h2, h3⟩ := foldl_paso_mejor scorer (preprocesar_nombre nombre_api) xs x
      (scorer (preprocesar_nombre nombre_api) (preprocesar_nombre x.name))
    have hstep : paso_mejor scorer (preprocesar_nombre nombre_api) none x
        = some (x, scorer (preprocesar_nombre nombre_api) (preprocesar_nombre x.name)) := rfl
    have hmax : puntaje_maximo scorer nombre_api (x :: xs)
        = (xs.map (fun y => scorer (preprocesar_nombre nombre_api)
            (preprocesar_nombre y.name))).foldl max
          (scorer (preprocesar_nombre nombre_api) (preprocesar_nombre x.name)) := by
      unfold puntaje_maximo
      rw [List.map_cons, List.foldl_cons, max_eq_right (hpos _ _)]
    refine ⟨c, s, ?_, ?_, ?_, ?_⟩
    · unfold mejor_candidato
      rw [List.foldl_cons, hstep]
      exact h1
    · rw [hmax]; exact h2
    · rcases h3 with ⟨hc, _⟩ | ⟨hc, _⟩
      · simp [hc]
      · exact List.mem_cons_of_mem x hc
    · rcases h3 with ⟨hc, hs⟩ | ⟨hc, hs⟩
      · rw [hc, hs]
      · exact hs

/-- Claim C6: the Name Matcher returns an immediate no-match with score 0 for
an empty query or candidate list; otherwise, writing `b` for the best
similarity score over the (preprocessed) candidates, it returns no candidate
with score 0 when `b < 50`, no candidate but the diagnostic score `b` when
`50 ≤ b < 80`, and the best candidate together with `b` exactly when
`80 ≤ b`. -/
theorem c6_match_por_nombre (scorer : String → String → ℚ) (nombre_api : String)
    (candidatos_csv : List CandCSV) (hpos : ∀ a b, 0 ≤ scorer a b) :
    (nombre_api = "" ∨ candidatos_csv = [] →
      hacer_match_por_nombre scorer nombre_api candidatos_csv = (none, 0))
    ∧ (nombre_api ≠ "" → candidatos_csv ≠ [] →
        (puntaje_maximo scorer nombre_api candidatos_csv < 50 →
          hacer_match_por_nombre scorer nombre_api candidatos_csv = (none, 0))
        ∧ (50 ≤ puntaje_maximo scorer nombre_api candidatos_csv →
            puntaje_maximo scorer nombre_api candidatos_csv < 80 →
            hacer_match_por_nombre scorer nombre_api candidatos_csv
              = (none, puntaje_maximo scorer nombre_api candidatos_csv))
        ∧ (80 ≤ puntaje_maximo scorer nombre_api candidatos_csv →
            ∃ c, c ∈ candidatos_csv
              ∧ scorer (preprocesar_nombre nombre_api) (preprocesar_nombre c.name)
                  = puntaje_maximo scorer nombre_api candidatos_csv
              ∧ hacer_match_por_nombre scorer nombre_api candidatos_csv
                  = (some c, puntaje_maximo scorer nombre_api candidatos_csv))) := by
  constructor
  · intro h
    simp only [hacer_match_por_nombre, if_pos h]
  · intro hq hc
    have hd : ¬(nombre_api = "" ∨ candidatos_csv = []) := by
      rintro (h | h)
      · exact hq h
      · exact hc h
    obtain ⟨c, s, h1, h2, hmem, hcs⟩ :=
      mejor_candidato_spec scorer nombre_api candidatos_csv hc hpos
    have hm : hacer_match_por_nombre scorer nombre_api candidatos_csv
        = (if s < 50 then (none, 0) else if 80 ≤ s then (some c, s) else (none, s)) := by
      simp only [hacer_match_por_nombre, if_neg hd, h1]
    refine ⟨?_, ?_, ?_⟩
    · intro hb
      rw [hm, if_pos (h2 ▸ hb)]
    · intro hb1 hb2
      rw [hm, if_neg (by rw [h2]; exact not_lt.mpr hb1),
        if_neg (by rw [h2]; exact not_le.mpr hb2), h2]
    · intro hb
      refine ⟨c, hmem, by rw [hcs, h2], ?_⟩
      rw [hm, if_neg (by rw [h2]; exact not_lt.mpr (le_trans (by norm_num) hb)),
        if_pos (h2 ▸ hb), h2]

/-- A constant scorer and a one-entry roster, instantiating the matcher
theorems. -/
def scorer_cien : String → String → ℚ := fun _ _ => 100

/-- A sample roster row. -/
def candcsv_ejemplo : CandCSV := CandCSV.mk "10" "Ana" "P" "P" "A" "F" "Z" ""

/-- Witness for the C6 theorem: a concrete query and roster hitting the
accepted-match branch. -/
theorem c6_match_por_nombre_testigo :
    ∃ c, c ∈ [candcsv_ejemplo]
      ∧ scorer_cien (preprocesar_nombre "Ana") (preprocesar_nombre candcsv_ejemplo.name)
          = puntaje_maximo scorer_cien "Ana" [candcsv_ejemplo]
      ∧ hacer_match_por_nombre scorer_cien "Ana" [candcsv_ejemplo]
          = (some c, puntaje_maximo scorer_cien "Ana" [candcsv_ejemplo]) := by
  have h := (c6_match_por_nombre scorer_cien "Ana" [candcsv_ejemplo]
    (fun a b => by norm_num [scorer_cien])).2 (by decide) (by decide)
  exact h.2.2 (by norm_num [puntaje_maximo, scorer_cien])

/-! Claim C5: missing or empty source data. -/

/-- A one-candidate metadata snapshot whose ordered list and mapping agree. -/
def distrito_data_ejemplo : DistritoData :=
  DistritoData.mk [ApiOrdenado.mk "Ana"] [("77", ApiDatos.mk "Ana" "P" "F")]

/-- Counterexample to claim C5 as stated: with an empty vote tally the
reconciler does return the empty list, but `calcular_dhondt_distrito` (with a
configured seat count) does not return NoResult — it returns a result with an
empty coalition list. -/
theorem c5_contraejemplo :
    integrar_tres_fuentes_limpio scorer_cien (some [candcsv_ejemplo]) distrito_data_ejemplo
        [] [] = []
    ∧ calcular_dhondt_distrito "6001" "normal" (some 2) [] 500
        (integrar_tres_fuentes_limpio scorer_cien (some [candcsv_ejemplo])
          distrito_data_ejemplo [] []) ≠ none := by
  have h : integrar_tres_fuentes_limpio scorer_cien (some [candcsv_ejemplo])
      distrito_data_ejemplo [] [] = [] := by
    simp [integrar_tres_fuentes_limpio]
  refine ⟨h, ?_⟩
  rw [h]
  simp [calcular_dhondt_distrito]

/-- Claim C5 (amended): if any of the three district inputs (roster rows,
metadata-feed candidates, vote tally) is missing or empty, the reconciler
returns the empty candidate list, and the district computation (mode
"normal", with a configured non-zero seat count) returns a result with an
empty `pactos` list and `total_diputados` 0 — an empty result, not NoResult.
(NoResult arises only for a missing or zero seat configuration, or a source
fetch raising outside this pure model.) -/
theorem c5_sin_datos (scorer : String → String → ℚ) (candidatos_csv : Option (List CandCSV))
    (distrito_data : DistritoData) (votos_xml : List (String × ℚ))
    (pactos_nombre : List (String × String))
    (h : candidatos_csv.getD [] = [] ∨ distrito_data.c = [] ∨ votos_xml = [])
    (distrito : String) (S : ℕ) (hS : S ≠ 0) (valor_uf : ℚ) :
    integrar_tres_fuentes_limpio scorer candidatos_csv distrito_data votos_xml pactos_nombre
        = []
    ∧ ∃ r, calcular_dhondt_distrito distrito "normal" (some S) pactos_nombre valor_uf
          (integrar_tres_fuentes_limpio scorer candidatos_csv distrito_data votos_xml
            pactos_nombre)
        = some r ∧ r.pactos = [] ∧ r.total_diputados = 0 := by
  have hint : integrar_tres_fuentes_limpio scorer candidatos_csv distrito_data votos_xml
      pactos_nombre = [] := by
    unfold integrar_tres_fuentes_limpio
    simp only [if_pos h]
  refine ⟨hint, armar_resultado distrito S pactos_nombre valor_uf [], ?_, rfl, rfl⟩
  rw [hint]
  simp [calcular_dhondt_distrito, hS]

/-- Witness for the amended C5 theorem at a concrete empty tally. -/
theorem c5_sin_datos_testigo :
    integrar_tres_fuentes_limpio scorer_cien (some [candcsv_ejemplo]) distrito_data_ejemplo
        [] [] = []
    ∧ ∃ r, calcular_dhondt_distrito "6001" "normal" (some 2) [] 500
          (integrar_tres_fuentes_limpio scorer_cien (some [candcsv_ejemplo])
            distrito_data_ejemplo [] [])
        = some r ∧ r.pactos = [] ∧ r.total_diputados = 0 :=
  c5_sin_datos scorer_cien (some [candcsv_ejemplo]) distrito_data_ejemplo [] []
    (Or.inr (Or.inr rfl)) "6001" 2 (by decide) 500

/-! Claim C7: unmatched tally entries. -/

/-- A record produced by `integrar_registro` with `match_exitoso = false`
carries the coalition letter "X" and no photo. -/
theorem integrar_registro_fallido (scorer : String → String → ℚ) (csv : List CandCSV)
    (capi : List (String × ApiDatos)) (mapeo : List (String × String))
    (pn : List (String × String)) (entrada : String × ℚ) (r : Candidato)
    (h : integrar_registro scorer csv capi mapeo pn entrada = some r)
    (hf : r.match_exitoso = false) : r.pacto_letra = "X" ∧ r.foto = none := by
  unfold integrar_registro at h
  split at h
  · simp at h
  · split at h
    · simp at h
    · split at h
      · simp at h
      · split at h
        · split at h
          · injection h with h2
            subst h2
            simp at hf
          · injection h with h2
            subst h2
            exact ⟨rfl, rfl⟩
        · injection h with h2
          subst h2
          exact ⟨rfl, rfl⟩

theorem foldl_congr_mem {α β : Type} (l : List β) (f g : α → β → α) :
    ∀ a : α, (∀ acc x, x ∈ l → f acc x = g acc x) → l.foldl f a = l.foldl g a := by
  induction l with
  | nil => intro a _; rfl
  | cons x xs ih =>
    intro a h
    rw [List.foldl_cons, List.foldl_cons, h a x (List.mem_cons_self x xs)]
    exact ih _ (fun acc y hy => h acc y (List.mem_cons_of_mem x hy))

/-- The `pactos` construction ignores match-failed candidates entirely: it
equals the construction over the match-successful sublist. -/
theorem construir_pactos_filter (pn : List (String × String)) (l : List Candidato) :
    construir_pactos pn l = construir_pactos pn (l.filter (fun c => c.match_exitoso)) := by
  suffices h : ∀ acc : List (String × PactoInfo),
      l.foldl (fun pactos c =>
        if c.match_exitoso then
          dUpdate pactos c.pacto_letra (pacto_nuevo pn c.pacto_letra)
            (fun i => agregar_a_pacto i c)
        else pactos) acc
      = (l.filter (fun c => c.match_exitoso)).foldl (fun pactos c =>
          if c.match_exitoso then
            dUpdate pactos c.pacto_letra (pacto_nuevo pn c.pacto_letra)
              (fun i => agregar_a_pacto i c)
          else pactos) acc by
    exact h []
  induction l with
  | nil => intro acc; rfl
  | cons c cs ih =>
    intro acc
    cases hm : c.match_exitoso with
    | true => simp only [List.foldl_cons, List.filter_cons, hm, if_pos, ih]
    | false => simp only [List.foldl_cons, List.filter_cons, hm, ih]; simp [hm]

/-- On a list of match-successful candidates, `construir_pactos` is the
generic grouping fold. -/
theorem construir_pactos_eq_agrupar (pn : List (String × String)) (l : List Candidato) :
    construir_pactos pn l
      = agrupar_con (fun c => c.pacto_letra) (fun c => pacto_nuevo pn c.pacto_letra)
          agregar_a_pacto (l.filter (fun c => c.match_exitoso)) := by
  rw [construir_pactos_filter]
  unfold construir_pactos agrupar_con
  apply foldl_congr_mem
  intro acc x hx
  have hm : x.match_exitoso = true := (List.mem_filter.mp hx).2
  simp [hm]

/-- Claim C7: every tally entry that resolves to a feed-id but whose name
match stays below score 80 appears in the reconciler's output with coalition
letter "X", no photo and `match_exitoso = false` (conjuncts 1 and 2), and the
coalition construction feeding vote totals and seat allocation considers only
`match_exitoso = true` candidates (conjunct 3). -/
theorem c7_sin_match (scorer : String → String → ℚ) (candidatos_csv : Option (List CandCSV))
    (distrito_data : DistritoData) (votos_xml : List (String × ℚ))
    (pactos_nombre : List (String × String)) :
    (∀ r ∈ integrar_tres_fuentes_limpio scorer candidatos_csv distrito_data votos_xml
        pactos_nombre,
      r.match_exitoso = false → r.pacto_letra = "X" ∧ r.foto = none)
    ∧ (∀ entrada ∈ votos_xml, ∀ (api_id : String) (datos : ApiDatos) (score : ℚ),
        candidatos_csv.getD [] ≠ [] → distrito_data.c ≠ [] →
        resolver_api_id (crear_mapeo_ids_xml_a_api distrito_data) distrito_data.c entrada.1
          = some api_id →
        api_id ≠ "" →
        dget distrito_data.c api_id = some datos →
        hacer_match_por_nombre scorer datos.n (candidatos_csv.getD []) = (none, score) →
        Candidato.mk api_id entrada.2 datos.n datos.c "X" (dgetD pactos_nombre "X" "Pacto X")
            datos.s "" none "" score false
          ∈ integrar_tres_fuentes_limpio scorer candidatos_csv distrito_data votos_xml
              pactos_nombre)
    ∧ (∀ (pn : List (String × String)) (l : List Candidato),
        construir_pactos pn l = construir_pactos pn (l.filter (fun c => c.match_exitoso))) := by
  refine ⟨?_, ?_, fun pn l => construir_pactos_filter pn l⟩
  · intro r hr hf
    unfold integrar_tres_fuentes_limpio at hr
    by_cases hg : candidatos_csv.getD [] = [] ∨ distrito_data.c = [] ∨ votos_xml = []
    · rw [if_pos hg] at hr
      simp at hr
    · rw [if_neg hg] at hr
      rw [mem_sortDescBy] at hr
      obtain ⟨entrada, _, heq⟩ := List.mem_filterMap.mp hr
      exact integrar_registro_fallido scorer _ _ _ _ entrada r heq hf
  · intro entrada hent api_id datos score hcsv hapi hres hid hdget hmatch
    have hvot : votos_xml ≠ [] := List.ne_nil_of_mem hent
    unfold integrar_tres_fuentes_limpio
    have hg : ¬(candidatos_csv.getD [] = [] ∨ distrito_data.c = [] ∨ votos_xml = []) := by
      push_neg
      exact ⟨hcsv, hapi, hvot⟩
    rw [if_neg hg, mem_sortDescBy]
    apply List.mem_filterMap.mpr
    refine ⟨entrada, hent, ?_⟩
    unfold integrar_registro
    rw [hres]
    simp only [if_neg hid, hdget, hmatch]

/-- A constant sub-80 scorer: every match stays in the diagnostic band. -/
def scorer_sesenta : String → String → ℚ := fun _ _ => 60

/-- Witness for the C7 theorem: a tally entry matched at score 60 appears in
the output as a coalition-"X", photo-less, match-failed record. -/
theorem c7_sin_match_testigo :
    Candidato.mk "77" ((("A" : String), (500 : ℚ)).2) "Ana" "P" "X" (dgetD [] "X" "Pacto X")
        "F" "" none "" 60 false
      ∈ integrar_tres_fuentes_limpio scorer_sesenta (some [candcsv_ejemplo])
          distrito_data_ejemplo [("A", 500)] [] := by
  have hres : resolver_api_id (crear_mapeo_ids_xml_a_api distrito_data_ejemplo)
      distrito_data_ejemplo.c ("A", (500 : ℚ)).1 = some "77" := by decide
  have hdget : dget distrito_data_ejemplo.c "77" = some (ApiDatos.mk "Ana" "P" "F") := by
    decide
  have hmatch : hacer_match_por_nombre scorer_sesenta (ApiDatos.mk "Ana" "P" "F").n
      ((some [candcsv_ejemplo]).getD []) = (none, 60) := by
    norm_num [hacer_match_por_nombre, mejor_candidato, paso_mejor, scorer_sesenta,
      candcsv_ejemplo, (by decide : ("Ana" : String) ≠ "")]
  exact (c7_sin_match scorer_sesenta (some [candcsv_ejemplo]) distrito_data_ejemplo
      [("A", 500)] []).2.1 ("A", 500) (List.mem_singleton.mpr rfl) "77"
    (ApiDatos.mk "Ana" "P" "F") 60 (by simp) (by simp [distrito_data_ejemplo]) hres
    (by decide) hdget hmatch

/-! Claim C1: seats are neither lost nor invented. -/

theorem length_coeficientes_pactos (pactos : List (String × PactoInfo)) (escanos : ℕ) :
    (coeficientes_pactos pactos escanos).length = pactos.length * escanos := by
  unfold coeficientes_pactos
  induction pactos with
  | nil => simp
  | cons e rest ih =>
    rw [List.flatMap_cons, List.length_append, ih, List.length_map, List.length_range',
      List.length_cons]
    ring

theorem procesar_pacto_result_escanos (distrito : String) (valor_uf : ℚ) (letra : String)
    (info : PactoInfo) (n : ℕ) :
    (procesar_pacto_result distrito valor_uf letra info n).escanos = n := by
  by_cases h : n = 0 <;> simp [procesar_pacto_result, h]

/-- The district result's coalition list, written out (pure unfolding of
`armar_resultado`). -/
theorem armar_resultado_pactos (distrito : String) (S : ℕ) (pn : List (String × String))
    (uf : ℚ) (candidatos : List Candidato) :
    (armar_resultado distrito S pn uf candidatos).pactos
      = sortDescBy (fun p q => decide (q.escanos < p.escanos)
          || (q.escanos == p.escanos && decide (q.total_votos < p.total_votos)))
        ((construir_pactos pn candidatos).map (fun e =>
          procesar_pacto_result distrito uf e.1 e.2
            (dgetD (aplicar_dhondt_entre_pactos (construir_pactos pn candidatos) S).1 e.1 0)))
    := rfl

/-- Core of claim C1: with a non-zero seat count and at least one
match-successful candidate, the per-coalition seat counts of the assembled
district result sum to the seat count. -/
theorem armar_total (distrito : String) (S : ℕ) (pn : List (String × String)) (uf : ℚ)
    (candidatos : List Candidato)
    (hm : ∃ c ∈ candidatos, c.match_exitoso = true) :
    ((armar_resultado distrito S pn uf candidatos).pactos.map (fun p => p.escanos)).sum
      = S := by
  obtain ⟨c, hc, hcm⟩ := hm
  have hfil : c ∈ candidatos.filter (fun x => x.match_exitoso) :=
    List.mem_filter.mpr ⟨hc, by simp [hcm]⟩
  have hpactos_ne : construir_pactos pn candidatos ≠ [] := by
    rw [construir_pactos_eq_agrupar]
    exact agrupar_con_ne_nil _ _ _ _ (List.ne_nil_of_mem hfil)
  have hnodup : ((construir_pactos pn candidatos).map Prod.fst).Nodup := by
    rw [construir_pactos_eq_agrupar]
    exact nodup_keys_agrupar_con _ _ _ _
  set pactos := construir_pactos pn candidatos with hpdef
  set mejores := (sortDescBy (fun a b => decide (b.coeficiente < a.coeficiente))
    (coeficientes_pactos pactos S)).take S with hmdef
  have hlen : mejores.length = S := by
    rw [hmdef, List.length_take, length_sortDescBy, length_coeficientes_pactos]
    have h1 : 1 ≤ pactos.length := Nat.one_le_iff_ne_zero.mpr (by
      intro h0
      exact hpactos_ne (List.length_eq_zero.mp h0))
    have h2 : S ≤ pactos.length * S := by
      calc S = 1 * S := (one_mul S).symm
      _ ≤ pactos.length * S := Nat.mul_le_mul_right S h1
    omega
  have hmemK : ∀ x ∈ mejores, x.pacto_letra ∈ pactos.map Prod.fst := by
    intro x hx
    have hx1 : x ∈ sortDescBy (fun a b => decide (b.coeficiente < a.coeficiente))
        (coeficientes_pactos pactos S) := List.take_subset S _ hx
    rw [mem_sortDescBy] at hx1
    unfold coeficientes_pactos at hx1
    obtain ⟨e, he, hxe⟩ := List.mem_flatMap.mp hx1
    obtain ⟨d, _, rfl⟩ := List.mem_map.mp hxe
    exact List.mem_map.mpr ⟨e, he, rfl⟩
  have hasig : ∀ k, dgetD (aplicar_dhondt_entre_pactos pactos S).1 k 0
      = mejores.countP (fun x => x.pacto_letra == k) := by
    intro k
    have h := dgetD_foldl_bump (fun x : Coef => x.pacto_letra) mejores k []
    simpa [aplicar_dhondt_entre_pactos, dgetD, dget, hmdef] using h
  rw [armar_resultado_pactos, sum_map_sortDescBy, List.map_map]
  have hcomp : ((fun p : PactoResult => p.escanos) ∘ fun e : String × PactoInfo =>
        procesar_pacto_result distrito uf e.1 e.2
          (dgetD (aplicar_dhondt_entre_pactos pactos S).1 e.1 0))
      = fun e : String × PactoInfo => mejores.countP (fun x => x.pacto_letra == e.1) := by
    funext e
    simp only [Function.comp_apply, procesar_pacto_result_escanos, hasig]
  rw [hcomp]
  have hmm : (pactos.map
        (fun e : String × PactoInfo => mejores.countP (fun x => x.pacto_letra == e.1))).sum
      = ((pactos.map Prod.fst).map
          (fun k => mejores.countP (fun x => x.pacto_letra == k))).sum := by
    rw [List.map_map]
    rfl
  rw [hmm, sum_countP_eq_length (fun x : Coef => x.pacto_letra) _ _ hnodup hmemK, hlen]

/-- Claim C1: whenever `calcular_dhondt_distrito` (mode "normal") returns a
result and at least one match-successful candidate exists, the `escanos`
fields over the result's `pactos` sum to the district's configured seat
count, which is also reported as `total_diputados` and as the result's
`escanos` field — no seats are lost or invented. -/
theorem c1_total_diputados (distrito : String) (S : ℕ)
    (pactos_nombre : List (String × String)) (valor_uf : ℚ)
    (candidatos : List Candidato) (r : Resultado)
    (h : calcular_dhondt_distrito distrito "normal" (some S) pactos_nombre valor_uf candidatos
      = some r)
    (hm : ∃ c ∈ candidatos, c.match_exitoso = true) :
    (r.pactos.map (fun p => p.escanos)).sum = S ∧ r.total_diputados = S ∧ r.escanos = S := by
  by_cases hS : S = 0
  · subst hS
    simp [calcular_dhondt_distrito] at h
  · have hr : r = armar_resultado distrito S pactos_nombre valor_uf candidatos := by
      simp [calcular_dhondt_distrito, hS] at h
      exact h.symm
    subst hr
    have hsum := armar_total distrito S pactos_nombre valor_uf candidatos hm
    refine ⟨hsum, ?_, rfl⟩
    have ht : (armar_resultado distrito S pactos_nombre valor_uf candidatos).total_diputados
        = ((armar_resultado distrito S pactos_nombre valor_uf candidatos).pactos.map
            (fun p => p.escanos)).sum := rfl
    rw [ht, hsum]

/-- Witness for the C1 theorem on a one-candidate, one-seat district. -/
theorem c1_total_diputados_testigo :
    ((armar_resultado "6001" 1 [] 500 [candidato_ejemplo]).pactos.map
        (fun p => p.escanos)).sum = 1
    ∧ (armar_resultado "6001" 1 [] 500 [candidato_ejemplo]).total_diputados = 1
    ∧ (armar_resultado "6001" 1 [] 500 [candidato_ejemplo]).escanos = 1 :=
  c1_total_diputados "6001" 1 [] 500 [candidato_ejemplo]
    (armar_resultado "6001" 1 [] 500 [candidato_ejemplo])
    (by simp [calcular_dhondt_distrito])
    ⟨candidato_ejemplo, List.mem_singleton.mpr rfl, rfl⟩

/-! Claim C2: Level-2 winner selection. -/

/-- Filtering a flatMap over association entries by a key selected once: when
every chunk is homogeneous in the key and the keys are distinct, the filter
returns exactly the selected entry's chunk. -/
theorem filter_flatMap_unico {β γ : Type} (key : γ → String) (L : List (String × β))
    (f : String × β → List γ) (p : String) (datos : β)
    (hnd : (L.map Prod.fst).Nodup)
    (hall : ∀ e ∈ L, ∀ x ∈ f e, key x = e.1)
    (hmem : (p, datos) ∈ L) :
    (L.flatMap f).filter (fun x => key x == p) = f (p, datos) := by
  induction L with
  | nil => simp at hmem
  | cons e rest ih =>
    simp only [List.map_cons, List.nodup_cons] at hnd
    rw [List.flatMap_cons, List.filter_append]
    rcases List.mem_cons.mp hmem with heq | hrest
    · have h1 : (f e).filter (fun x => key x == p) = f e := by
        apply List.filter_eq_self.mpr
        intro x hx
        have := hall e (List.mem_cons_self e rest) x hx
        rw [← heq] at this
        simp [this]
      have h2 : (rest.flatMap f).filter (fun x => key x == p) = [] := by
        apply List.filter_eq_nil_iff.mpr
        intro x hx
        obtain ⟨e2, he2, hxe2⟩ := List.mem_flatMap.mp hx
        have hk : key x = e2.1 := hall e2 (List.mem_cons_of_mem e he2) x hxe2
        have hne : e2.1 ≠ p := by
          intro hp
          apply hnd.1
          rw [← heq]
          exact hp ▸ List.mem_map.mpr ⟨e2, he2, rfl⟩
        simp [hk, hne]
      rw [h1, h2, List.append_nil, ← heq]
    · have hne : e.1 ≠ p := by
        intro hp
        apply hnd.1
        exact hp ▸ List.mem_map.mpr ⟨(p, datos), hrest, rfl⟩
      have h1 : (f e).filter (fun x => key x == p) = [] := by
        apply List.filter_eq_nil_iff.mpr
        intro x hx
        have := hall e (List.mem_cons_self e rest) x hx
        simp [this, hne]
      rw [h1, List.nil_append]
      exact ih hnd.2 (fun e2 he2 x hx => hall e2 (List.mem_cons_of_mem e he2) x hx) hrest

theorem nodup_keys_agrupar_por_partido (candidatos : List Candidato) :
    ((agrupar_por_partido candidatos).map Prod.fst).Nodup := by
  unfold agrupar_por_partido
  rw [List.map_map]
  exact nodup_keys_agrupar_con _ _ _ _

/-- Each `partidos_info` group holds exactly the projections of the
coalition's candidates with that `partido` value, sorted by votes
descending. -/
theorem grupo_partido_spec (candidatos : List Candidato) (p : String) (datos : GrupoPartido)
    (hmem : (p, datos) ∈ agrupar_por_partido candidatos) :
    datos.candidatos = sortDescBy (fun a b => decide (b.votos < a.votos))
      ((candidatos.filter (fun c => c.partido == p)).map proyectar) := by
  unfold agrupar_por_partido at hmem
  obtain ⟨⟨p0, g0⟩, he0, heq⟩ := List.mem_map.mp hmem
  obtain ⟨hp, hd⟩ := Prod.mk.injEq .. ▸ heq
  have hp2 : p0 = p := hp
  have hd2 : GrupoPartido.mk g0.total_votos
      (sortDescBy (fun a b => decide (b.votos < a.votos)) g0.candidatos) = datos := hd
  rw [hp2] at he0
  have hnd : ((agrupar_con (fun c : Candidato => c.partido) (fun _ => GrupoPartido.mk 0 [])
      (fun d c => GrupoPartido.mk (d.total_votos + c.votos)
        (d.candidatos ++ [proyectar c])) candidatos).map Prod.fst).Nodup :=
    nodup_keys_agrupar_con _ _ _ _
  have hg := dget_eq_some_of_mem _ p g0 hnd he0
  have hcomp := comp_dget_agrupar_con (fun c : Candidato => c.partido)
    (fun _ => GrupoPartido.mk 0 [])
    (fun d c => GrupoPartido.mk (d.total_votos + c.votos) (d.candidatos ++ [proyectar c]))
    (fun g => g.candidatos) proyectar (fun _ => rfl) (fun _ _ => rfl) candidatos p
  rw [hg] at hcomp
  simp only [Option.map_some', Option.getD_some] at hcomp
  rw [← hd2]
  show sortDescBy (fun a b => decide (b.votos < a.votos)) g0.candidatos
      = sortDescBy (fun a b => decide (b.votos < a.votos))
        ((candidatos.filter (fun c => c.partido == p)).map proyectar)
  rw [hcomp]

/-- Every member of a `partidos_info` group is the projection of a coalition
candidate with that `partido`. -/
theorem mem_grupo_partido (candidatos : List Candidato) (p : String) (datos : GrupoPartido)
    (hmem : (p, datos) ∈ agrupar_por_partido candidatos) :
    ∀ e ∈ datos.candidatos, ∃ c ∈ candidatos, c.partido = p ∧ proyectar c = e := by
  intro e he
  rw [grupo_partido_spec candidatos p datos hmem, mem_sortDescBy] at he
  obtain ⟨c, hc, rfl⟩ := List.mem_map.mp he
  have hcf := List.mem_filter.mp hc
  exact ⟨c, hcf.1, by simpa using hcf.2, rfl⟩

/-- With pairwise-distinct names, the source's name lookup
`next(c for c in candidatos_completos if c["nombre"] == ...)` recovers the
original record. -/
theorem find_nombre_eq (l : List Candidato)
    (hnd : (l.map (fun c => c.nombre)).Nodup) (c : Candidato) (hc : c ∈ l) :
    l.find? (fun x => x.nombre == c.nombre) = some c := by
  induction l with
  | nil => simp at hc
  | cons y ys ih =>
    simp only [List.map_cons, List.nodup_cons] at hnd
    rcases List.mem_cons.mp hc with rfl | hc2
    · exact List.find?_cons_of_pos _ (by simp)
    · have hne : ¬((y.nombre == c.nombre) = true) := by
        simp only [beq_iff_eq]
        intro he
        exact hnd.1 (he ▸ List.mem_map.mpr ⟨c, hc2, rfl⟩)
      have hstep : List.find? (fun x => x.nombre == c.nombre) (y :: ys)
          = List.find? (fun x => x.nombre == c.nombre) ys := by
        apply List.find?_cons_of_neg
        exact hne
      rw [hstep]
      exact ih hnd.2 hc2

/-- Every elected record contributed by a `partidos_info` group carries that
group's `partido` key (names distinct). -/
theorem electos_grupo_partido (distrito : String) (completos : List Candidato)
    (asig : List (String × ℕ))
    (hnombres : (completos.map (fun c => c.nombre)).Nodup)
    (q : String) (dq : GrupoPartido)
    (hq : (q, dq) ∈ agrupar_por_partido completos) :
    ∀ x ∈ electos_grupo distrito completos asig (q, dq), x.partido = q := by
  intro x hx
  simp only [electos_grupo] at hx
  by_cases h0 : 0 < dgetD asig q 0
  · rw [if_pos h0] at hx
    obtain ⟨elegido, hel, hfind⟩ := List.mem_filterMap.mp hx
    obtain ⟨c, hfc, hcx⟩ := Option.map_eq_some'.mp hfind
    have helc : elegido ∈ dq.candidatos := List.take_subset _ _ hel
    obtain ⟨c0, hc0, hc0p, hc0e⟩ := mem_grupo_partido completos q dq hq elegido helc
    have hcmem : c ∈ completos := List.mem_of_find?_eq_some hfc
    have hcn : c.nombre = elegido.nombre := by
      have := List.find?_some hfc
      simpa using this
    have hc0n : c0.nombre = elegido.nombre := by rw [← hc0e]; rfl
    have hceq : c = c0 := List.inj_on_of_nodup_map hnombres hcmem hc0 (by rw [hcn, hc0n])
    rw [← hcx, hceq]
    exact hc0p
  · rw [if_neg h0] at hx
    simp at hx

/-- The names of a group's elected records are exactly the names of the first
`n` candidates of the group, `n` being the group's looked-up seat count
(names distinct). -/
theorem electos_grupo_nombres (distrito : String) (completos : List Candidato)
    (asig : List (String × ℕ)) (p : String) (datos : GrupoPartido)
    (hnombres : (completos.map (fun c => c.nombre)).Nodup)
    (hmem : (p, datos) ∈ agrupar_por_partido completos) :
    (electos_grupo distrito completos asig (p, datos)).map (fun e => e.nombre)
      = (datos.candidatos.take (dgetD asig p 0)).map (fun e => e.nombre) := by
  simp only [electos_grupo]
  by_cases h0 : 0 < dgetD asig p 0
  · rw [if_pos h0]
    have hgen : ∀ l : List ECand,
        (∀ e ∈ l, ∃ c ∈ completos, c.partido = p ∧ proyectar c = e) →
        ((l.filterMap (fun elegido =>
            (completos.find? (fun x => x.nombre == elegido.nombre)).map
              (electo_de distrito))).map (fun e => e.nombre))
          = l.map (fun e => e.nombre) := by
      intro l
      induction l with
      | nil => intro _; simp
      | cons e es ih =>
        intro hall
        obtain ⟨c0, hc0m, _, hc0e⟩ := hall e (List.mem_cons_self e es)
        have hc0n : c0.nombre = e.nombre := by rw [← hc0e]; rfl
        have hfind : completos.find? (fun x => x.nombre == e.nombre) = some c0 := by
          rw [← hc0n]
          exact find_nombre_eq completos hnombres c0 hc0m
        have hrest := ih (fun y hy => hall y (List.mem_cons_of_mem e hy))
        simp [List.filterMap_cons, hfind, Option.map_some', hrest, electo_de, hc0n]
    exact hgen (datos.candidatos.take (dgetD asig p 0))
      (fun e he => mem_grupo_partido completos p datos hmem e (List.take_subset _ _ he))
  · rw [if_neg h0]
    have hz : dgetD asig p 0 = 0 := by omega
    simp [hz]

/-- Under the cupo = partido discipline, the intra-coalition walk's candidate
availability for a party label equals that party's group size. -/
theorem disponibles_nivel2 (completos : List Candidato) (p : String) (datos : GrupoPartido)
    (hcp : ∀ c ∈ completos, c.cupo = c.partido ∧ c.cupo ≠ "")
    (hmem : (p, datos) ∈ agrupar_por_partido completos) :
    ((candidatos_para_dhondt (agrupar_por_partido completos)).filter
        (fun x => cupoEfectivo x == p)).length = datos.candidatos.length := by
  unfold candidatos_para_dhondt
  rw [filter_flatMap_unico cupoEfectivo (agrupar_por_partido completos)
    (fun e => e.2.candidatos.map (fun c => CandInterno.mk c.nombre c.votos c.cupo e.1 c.sexo))
    p datos (nodup_keys_agrupar_por_partido completos) ?hall hmem]
  · exact List.length_map _ _
  case hall =>
    intro e he x hx
    obtain ⟨ec, hec, rfl⟩ := List.mem_map.mp hx
    obtain ⟨c, hcm, hcp2, hce⟩ := mem_grupo_partido completos e.1 e.2 he ec hec
    obtain ⟨hcup, hne⟩ := hcp c hcm
    have hecc : ec.cupo = e.1 := by
      rw [← hce]
      simp [proyectar, hcup, hcp2]
    have hnec : ec.cupo ≠ "" := by
      rw [hecc, ← hcp2, ← hcup]
      exact hne
    simp [cupoEfectivo, hecc, if_neg (hecc ▸ hnec)]

/-- A coalition candidate whose roster cupo label ("P") differs from its
metadata-feed partido field ("Q") — both fields exist on every reconciled
record and come from different sources. -/
def candidato_cupo_distinto : Candidato :=
  Candidato.mk "9" 100 "Nora" "Q" "A" "Pacto A" "F" "P" none "" 100 true

/-- The coalition of that single candidate. -/
def pacto_info_ejemplo : PactoInfo :=
  PactoInfo.mk "Pacto A" "A" 100 [candidato_cupo_distinto]

/-- Counterexample to claim C2 as stated: the intra-coalition walk groups by
cupo and assigns the party labelled "P" its one seat, yet the
winner-selection loop — which groups candidates by the `partido` field ("Q")
and looks that label up in the cupo-keyed assignment — elects nobody, so the
party's elected candidates are not its top-1 by votes. -/
theorem c2_contraejemplo :
    dgetD (calcular_dhondt_interno_pacto
        (candidatos_para_dhondt (agrupar_por_partido [candidato_cupo_distinto])) 1).1 "P" 0
      = 1
    ∧ (procesar_pacto_result "6001" 500 "A" pacto_info_ejemplo 1).candidatos_electos = [] := by
  constructor
  · norm_num [candidato_cupo_distinto, agrupar_por_partido, agrupar_con, dUpdate, proyectar,
      candidatos_para_dhondt, calcular_dhondt_interno_pacto, partidos_orden_interno,
      agrupar_partidos_interno, cupoEfectivo, coeficientes_interno, List.range', sortDescBy,
      insDesc, caminar_coeficientes, paso_caminar, bump, dgetD, dget,
      (by decide : ("P" : String) ≠ ""), (by decide : ("P" : String) ≠ "Q"),
      (by decide : ("Q" : String) ≠ "P")]
  · norm_num [pacto_info_ejemplo, candidato_cupo_distinto, procesar_pacto_result,
      agrupar_por_partido, agrupar_con, dUpdate, proyectar, candidatos_para_dhondt,
      calcular_dhondt_interno_pacto, partidos_orden_interno, agrupar_partidos_interno,
      cupoEfectivo, coeficientes_interno, List.range', sortDescBy, insDesc,
      caminar_coeficientes, paso_caminar, bump, dgetD, dget, seleccionar_electos,
      electos_grupo, (by decide : ("P" : String) ≠ ""), (by decide : ("P" : String) ≠ "Q"),
      (by decide : ("Q" : String) ≠ "P")]

/-- Claim C2 (amended): the intra-coalition walk allocates seats per cupo
group, but winners are selected per `partido` group using that cupo-keyed
assignment.  When every coalition candidate's cupo equals its partido field
and is non-empty (so both groupings coincide) and candidate names are
pairwise distinct (so the name lookup recovers the right record), each
party's elected candidates are exactly its top-N candidates by vote count —
the first N of its votes-descending group — where N is the number of seats
the walk assigned to that party. -/
theorem c2_nivel2_cupo_igual_partido (distrito : String) (valor_uf : ℚ) (letra : String)
    (info : PactoInfo) (pacto_seats : ℕ) (hs : pacto_seats ≠ 0)
    (hcp : ∀ c ∈ info.candidatos_completos, c.cupo = c.partido ∧ c.cupo ≠ "")
    (hnombres : (info.candidatos_completos.map (fun c => c.nombre)).Nodup) :
    (procesar_pacto_result distrito valor_uf letra info pacto_seats).candidatos_electos
      = sortDescBy (fun a b => decide (b.votos < a.votos))
          (seleccionar_electos distrito info.candidatos_completos
            (agrupar_por_partido info.candidatos_completos)
            (calcular_dhondt_interno_pacto
              (candidatos_para_dhondt (agrupar_por_partido info.candidatos_completos))
              pacto_seats).1)
    ∧ ∀ p datos, (p, datos) ∈ agrupar_por_partido info.candidatos_completos →
        ((seleccionar_electos distrito info.candidatos_completos
              (agrupar_por_partido info.candidatos_completos)
              (calcular_dhondt_interno_pacto
                (candidatos_para_dhondt (agrupar_por_partido info.candidatos_completos))
                pacto_seats).1).filter (fun e => e.partido == p)).map (fun e => e.nombre)
          = (datos.candidatos.take
              (dgetD (calcular_dhondt_interno_pacto
                (candidatos_para_dhondt (agrupar_por_partido info.candidatos_completos))
                pacto_seats).1 p 0)).map (fun e => e.nombre)
        ∧ (datos.candidatos.take
            (dgetD (calcular_dhondt_interno_pacto
              (candidatos_para_dhondt (agrupar_por_partido info.candidatos_completos))
              pacto_seats).1 p 0)).length
          = dgetD (calcular_dhondt_interno_pacto
              (candidatos_para_dhondt (agrupar_por_partido info.candidatos_completos))
              pacto_seats).1 p 0 := by
  constructor
  · simp [procesar_pacto_result, hs]
  · intro p datos hmem
    constructor
    · have hfil := filter_flatMap_unico (fun e : Electo => e.partido)
        (agrupar_por_partido info.candidatos_completos)
        (electos_grupo distrito info.candidatos_completos
          (calcular_dhondt_interno_pacto
            (candidatos_para_dhondt (agrupar_por_partido info.candidatos_completos))
            pacto_seats).1)
        p datos (nodup_keys_agrupar_por_partido _)
        (fun e he x hx => electos_grupo_partido distrito info.candidatos_completos _
          hnombres e.1 e.2 he x hx)
        hmem
      have hsel : seleccionar_electos distrito info.candidatos_completos
          (agrupar_por_partido info.candidatos_completos)
          (calcular_dhondt_interno_pacto
            (candidatos_para_dhondt (agrupar_por_partido info.candidatos_completos))
            pacto_seats).1
          = (agrupar_por_partido info.candidatos_completos).flatMap
              (electos_grupo distrito info.candidatos_completos
                (calcular_dhondt_interno_pacto
                  (candidatos_para_dhondt (agrupar_por_partido info.candidatos_completos))
                  pacto_seats).1) := rfl
      rw [hsel, hfil]
      exact electos_grupo_nombres distrito info.candidatos_completos _ p datos hnombres hmem
    · have hle : dgetD (calcular_dhondt_interno_pacto
          (candidatos_para_dhondt (agrupar_por_partido info.candidatos_completos))
          pacto_seats).1 p 0 ≤ datos.candidatos.length := by
        have h1 := (interno_le_disponibles
          (candidatos_para_dhondt (agrupar_por_partido info.candidatos_completos))
          pacto_seats).1 p
        rw [disponibles_nivel2 info.candidatos_completos p datos hcp hmem] at h1
        exact h1
      rw [List.length_take]
      omega

/-- A coalition candidate whose cupo and partido coincide. -/
def candidato_cupo_igual : Candidato :=
  Candidato.mk "8" 100 "Rosa" "P" "A" "Pacto A" "M" "P" none "" 100 true

/-- The coalition of that single candidate. -/
def pacto_info_bueno : PactoInfo :=
  PactoInfo.mk "Pacto A" "A" 100 [candidato_cupo_igual]

/-- Witness for the amended C2 theorem on a one-candidate coalition with
cupo = partido. -/
theorem c2_nivel2_testigo :
    (procesar_pacto_result "6001" 500 "A" pacto_info_bueno 1).candidatos_electos
      = sortDescBy (fun a b => decide (b.votos < a.votos))
          (seleccionar_electos "6001" pacto_info_bueno.candidatos_completos
            (agrupar_por_partido pacto_info_bueno.candidatos_completos)
            (calcular_dhondt_interno_pacto
              (candidatos_para_dhondt
                (agrupar_por_partido pacto_info_bueno.candidatos_completos))
              1).1) :=
  (c2_nivel2_cupo_igual_partido "6001" 500 "A" pacto_info_bueno 1 (by decide)
    (by decide) (by decide)).1

end Elecciones
